import Mathlib

/-!
Verification of the ALB log reporter's analysis pipeline
(`src/alb_log_analyzer.py`, `main.py`) against its specification.

The Python source is shallowly embedded: the regex-based line grammar of
`ELBLogAnalyzer._parse_log_line` becomes a deterministic tokenizer over
`List Char` (the regex is a backtracking-free sequence of `[^ ]+`, literal
spaces and quoted `[^"]*` / `[^"]+` groups, so the translation is exact),
Python `float` becomes a rational-valued parser that is exact on the plain
finite decimal/exponent fragment `floatTokenPlain` (and under the
real-number reading of IEEE doubles), `datetime.strptime` with the fixed
format `%Y-%m-%dT%H:%M:%S.%fZ` becomes `parseTimestamp` (CPython's
per-directive digit patterns, its case-insensitive literal matching and the
`datetime` constructor's range validation, exact on ASCII tokens per
`asciiToken`), counters become association
lists, `Counter.most_common` / `heapq.nlargest` becomes a stable insertion
sort over index-decorated entries, and pandas dataframes become lists of
typed rows. Exceptions that escape a Python function are an `Except.error`
value of the embedded function.
-/

namespace AlbLog

/-- Python's `str.startswith(p)`: list-prefix test on the characters. -/
def pyStartsWith (s p : String) : Bool :=
  p.data.isPrefixOf s.data

/-- Python's `s.split(':')[0]`: everything before the first `':'`
(the whole string when there is no `':'`). -/
def pySplitColonHead (s : String) : String :=
  String.mk (s.data.takeWhile (· ≠ ':'))

/-- The characters matched by Python's `\s` in `re` str patterns (used by
the request sub-field grammar; `\S` below is its complement): the Unicode
whitespace set, namely tab through carriage return (U+0009 to U+000D), the
file/group/record/unit separators U+001C to U+001F, the space, the next
line U+0085, the no-break space U+00A0, the Ogham space mark U+1680, the
Zs en/em family U+2000 to U+200A, the line and paragraph separators
U+2028 and U+2029, the narrow no-break space U+202F, the medium
mathematical space U+205F and the ideographic space U+3000. -/
def pySpace (c : Char) : Bool :=
  c = ' ' || c = '\t' || c = '\n' || c = '\x0b' || c = '\x0c' || c = '\r' ||
  c = '\x1c' || c = '\x1d' || c = '\x1e' || c = '\x1f' ||
  c = '\x85' || c = '\xa0' || c = '\u1680' ||
  ('\u2000' ≤ c && c ≤ '\u200a') ||
  c = '\u2028' || c = '\u2029' || c = '\u202f' || c = '\u205f' || c = '\u3000'

/-- Value of a list of decimal digit characters. -/
def digitsToNat (l : List Char) : Nat :=
  l.foldl (fun acc c => 10 * acc + (c.toNat - 48)) 0

/-- The exact rational value `m * 10 ^ e` of a decimal literal with integer
mantissa `m` and (possibly negative) decimal exponent `e`. -/
def ratOfScientific (m e : Int) : ℚ :=
  if 0 ≤ e then mkRat (m * (10 : Int) ^ e.toNat) 1
  else mkRat m ((10 : Nat) ^ (-e).toNat)

/-- Python `float(s)` on plain finite literals: optional sign, decimal
digits with an optional fractional part, optional decimal exponent; the
whole string must be consumed.  The value is the exact rational value of
the literal — the specification's real-number reading of IEEE doubles, so
rounding, overflow-to-infinity and underflow-to-zero artifacts are not
modelled.  `inf`/`nan` spellings, underscored literals, whitespace padding
and non-ASCII digits lie outside the modelled fragment and are treated as
failures; theorems whose truth depends on `float`'s accept/reject
behaviour therefore confine their duration tokens to `floatTokenPlain`
below, where this model and CPython agree exactly. -/
def pyFloat (s : String) : Option ℚ :=
  let l := s.data
  let (sgn, l) : Int × List Char :=
    match l with
    | '-' :: rest => (-1, rest)
    | '+' :: rest => (1, rest)
    | _ => (1, l)
  let (ip, l) := l.span (·.isDigit)
  let (fp, l) : List Char × List Char :=
    match l with
    | '.' :: rest => rest.span (·.isDigit)
    | _ => ([], l)
  if ip.isEmpty ∧ fp.isEmpty then none else
  let mantissa : Int := sgn * digitsToNat (ip ++ fp)
  let scale : Int := fp.length
  match l with
  | [] => some (ratOfScientific mantissa (-scale))
  | 'e' :: rest | 'E' :: rest =>
    let (esgn, rest) : Int × List Char :=
      match rest with
      | '-' :: r => (-1, r)
      | '+' :: r => (1, r)
      | _ => (1, rest)
    let (ed, rest) := rest.span (·.isDigit)
    if ed.isEmpty ∨ ¬ rest.isEmpty then none
    else some (ratOfScientific mantissa (esgn * digitsToNat ed - scale))
  | _ => none

/-- Tokens within the modelled fragment of Python `float`: ASCII digits,
`.`, `+`, `-`, `e` and `E` only.  On such tokens `pyFloat` succeeds exactly
when CPython's `float()` does, and with the literal's exact rational value;
`inf`/`nan` spellings, underscored literals, whitespace padding and
non-ASCII digits — none of which ALB emits in duration fields — are
excluded from the fragment. -/
def floatTokenPlain (s : String) : Bool :=
  s.data.all fun c =>
    c.isDigit || c = '.' || c = '+' || c = '-' || c = 'e' || c = 'E'

/-- Tokens of ASCII characters only.  Over ASCII the regex class `\d` used
by CPython's `_strptime` is exactly the ASCII digits, so `parseTimestamp`
below models `strptime` exactly on such tokens (non-ASCII decimal digits,
which ALB never emits in timestamps, lie outside the modelled fragment). -/
def asciiToken (s : String) : Bool :=
  s.data.all fun c => c.toNat < 128

/-- A zone-naive point in time, as stored by the pipeline after
`strptime` / timezone conversion / `tzinfo` removal. -/
structure DateTime where
  year : Nat
  month : Nat
  day : Nat
  hour : Nat
  minute : Nat
  second : Nat
  microsecond : Nat
deriving DecidableEq, Repr

/-- Days in a month, with the Gregorian leap rule (`datetime`'s
day-of-month validation). -/
def daysInMonth (y m : Nat) : Nat :=
  if m = 2 then
    if (y % 4 = 0 ∧ y % 100 ≠ 0) ∨ y % 400 = 0 then 29 else 28
  else if m = 4 ∨ m = 6 ∨ m = 9 ∨ m = 11 then 30
  else 31

/-- Read one or two decimal digits the way CPython's `_strptime` alternations
do for `%m`/`%d`/`%H`/`%M`/`%S`: prefer the two-digit reading when its value
is at most `hi2`, otherwise fall back to a single digit of value at most
`hi1`. Returns the value and the remaining characters. -/
def takeNum2 (hi2 hi1 : Nat) : List Char → Option (Nat × List Char)
  | c1 :: c2 :: rest =>
    if c1.isDigit ∧ c2.isDigit then
      let n := (c1.toNat - 48) * 10 + (c2.toNat - 48)
      if n ≤ hi2 then some (n, rest)
      else if c1.toNat - 48 ≤ hi1 then some (c1.toNat - 48, c2 :: rest) else none
    else if c1.isDigit ∧ c1.toNat - 48 ≤ hi1 then some (c1.toNat - 48, c2 :: rest)
    else none
  | [c1] => if c1.isDigit ∧ c1.toNat - 48 ≤ hi1 then some (c1.toNat - 48, []) else none
  | [] => none

/-- `datetime.strptime(s, '%Y-%m-%dT%H:%M:%S.%fZ')`: four year digits,
one-or-two-digit month/day/hour/minute/second, one to six fractional-second
digits right-padded to microseconds, with the literal separators (matched
case-insensitively, as `_strptime` compiles its pattern with
`re.IGNORECASE`, so `t`/`z` are accepted for `T`/`Z`), the whole string
consumed, and the `datetime` constructor's range checks (year ≥ 1, valid
day of month, second ≤ 59).  A `None` result is CPython's `ValueError`.
Digits are modelled over ASCII, per `asciiToken` above. -/
def parseTimestamp (s : String) : Option DateTime := do
  let l := s.data
  match l with
  | y1 :: y2 :: y3 :: y4 :: '-' :: rest =>
    if ¬ (y1.isDigit ∧ y2.isDigit ∧ y3.isDigit ∧ y4.isDigit) then none else
    let y := digitsToNat [y1, y2, y3, y4]
    if y = 0 then none else
    let (m, rest) ← takeNum2 12 9 rest
    if m = 0 then none else
    match rest with
    | '-' :: rest =>
      let (d, rest) ← takeNum2 31 9 rest
      if d = 0 ∨ d > daysInMonth y m then none else
      match rest with
      | tc :: rest =>
        if ¬ (tc = 'T' ∨ tc = 't') then none else
        let (hh, rest) ← takeNum2 23 9 rest
        match rest with
        | ':' :: rest =>
          let (mi, rest) ← takeNum2 59 9 rest
          match rest with
          | ':' :: rest =>
            let (ss, rest) ← takeNum2 61 9 rest
            if ss > 59 then none else
            match rest with
            | '.' :: rest =>
              let fd := (rest.take 6).takeWhile (·.isDigit)
              if fd.isEmpty then none else
              match rest.drop fd.length with
              | [zc] =>
                if zc = 'Z' ∨ zc = 'z' then
                  some ⟨y, m, d, hh, mi, ss, digitsToNat fd * 10 ^ (6 - fd.length)⟩
                else none
              | _ => none
            | _ => none
          | _ => none
        | _ => none
      | _ => none
    | _ => none
  | _ => none

/-- The 30 groups captured by the `_parse_log_line` regex, in order. -/
structure RawLog where
  type : String
  timestamp : String
  elb : String
  client_ip : String
  target_ip : String
  request_processing_time : String
  target_processing_time : String
  response_processing_time : String
  elb_status_code : String
  target_status_code : String
  received_bytes : String
  sent_bytes : String
  request : String
  user_agent : String
  ssl_cipher : String
  ssl_protocol : String
  target_group_arn : String
  trace_id : String
  domain_name : String
  chosen_cert_arn : String
  matched_rule_priority : String
  request_creation_time : String
  actions_executed : String
  redirect_url : String
  error_reason : String
  target_port_list : String
  target_status_code_list : String
  classification : String
  classification_reason : String
  conn_trace_id : String
deriving DecidableEq, Repr

/-- `(?P<g>[^ ]+) ` : a nonempty run of non-space characters followed by a
space (consumed). -/
def tokSp (l : List Char) : Option (String × List Char) :=
  let (t, rest) := l.span (· ≠ ' ')
  match rest with
  | ' ' :: rest => if t.isEmpty then none else some (String.mk t, rest)
  | _ => none

/-- `(?P<g>[^ ]+)` at the end of the pattern: a nonempty run of non-space
characters; `re.match` ignores whatever follows the match. -/
def tokEnd (l : List Char) : Option String :=
  let t := l.takeWhile (· ≠ ' ')
  if t.isEmpty then none else some (String.mk t)

/-- `"(?P<g>[^"]*)" ` (or `[^"]+` when `allowEmpty` is false): a quoted run
of non-quote characters followed by a space (consumed). -/
def quotSp (allowEmpty : Bool) (l : List Char) : Option (String × List Char) :=
  match l with
  | '"' :: l =>
    let (t, rest) := l.span (· ≠ '"')
    match rest with
    | '"' :: ' ' :: rest =>
      if ¬ allowEmpty ∧ t.isEmpty then none else some (String.mk t, rest)
    | _ => none
  | _ => none

/-- The kind of one capture group in the line regex: an unquoted
`[^ ]+` token, or a quoted group (`[^"]*` when `allowEmpty`,
`[^"]+` otherwise), each followed by a literal space. -/
inductive GroupKind where
  | plain : GroupKind
  | quoted : Bool → GroupKind
deriving DecidableEq, Repr

/-- Read one capture group of the given kind. -/
def readGroup : GroupKind → List Char → Option (String × List Char)
  | .plain, l => tokSp l
  | .quoted allowEmpty, l => quotSp allowEmpty l

/-- Read a sequence of capture groups, returning the captured strings in
order and the remaining characters. -/
def readGroups : List GroupKind → List Char → Option (List String × List Char)
  | [], l => some ([], l)
  | k :: ks, l =>
    match readGroup k l with
    | none => none
    | some (f, l) =>
      match readGroups ks l with
      | none => none
      | some (fs, l) => some (f :: fs, l)

/-- The sequence of the first 29 groups of the `_parse_log_line` regex
(groups 1–12 unquoted, 13–14 quoted nonempty, 15–17 unquoted,
18–20 quoted possibly-empty, 21–22 unquoted, 23–29 quoted
possibly-empty); the final 30th group `conn_trace_id` has no trailing
space and is read separately. -/
def grammarGroups : List GroupKind :=
  List.replicate 12 .plain ++ [.quoted false, .quoted false] ++
  List.replicate 3 .plain ++ List.replicate 3 (.quoted true) ++
  List.replicate 2 .plain ++ List.replicate 7 (.quoted true)

/-- The full line grammar of `_parse_log_line` (the compiled regex applied
with `re.match`, i.e. anchored at the start of the line, trailing text after
the final `conn_trace_id` token ignored).  The 30 captured strings fill the
`RawLog` fields in regex order. -/
def matchGrammar (line : String) : Option RawLog :=
  match readGroups grammarGroups line.data with
  | none => none
  | some (fs, l) =>
    match tokEnd l with
    | none => none
    | some f30 =>
      some ⟨fs.getD 0 "", fs.getD 1 "", fs.getD 2 "", fs.getD 3 "",
            fs.getD 4 "", fs.getD 5 "", fs.getD 6 "", fs.getD 7 "",
            fs.getD 8 "", fs.getD 9 "", fs.getD 10 "", fs.getD 11 "",
            fs.getD 12 "", fs.getD 13 "", fs.getD 14 "", fs.getD 15 "",
            fs.getD 16 "", fs.getD 17 "", fs.getD 18 "", fs.getD 19 "",
            fs.getD 20 "", fs.getD 21 "", fs.getD 22 "", fs.getD 23 "",
            fs.getD 24 "", fs.getD 25 "", fs.getD 26 "", fs.getD 27 "",
            fs.getD 28 "", f30⟩

/-- The request sub-field grammar
`re.match(r'(?P<method>\S+)\s+(?P<url>\S+)\s+(?P<version>\S+)', request)`:
three runs of non-whitespace separated by whitespace, trailing text
ignored.  Returns `(method, url, version)`.  `pySpace` is the full set of
characters `\s` matches in a str pattern, and `\S` its complement, so the
split is exact on all inputs. -/
def parseRequest (s : String) : Option (String × String × String) :=
  let l := s.data
  let (m, r1) := l.span (fun c => ¬ pySpace c)
  if m.isEmpty then none else
  let (w1, r2) := r1.span pySpace
  if w1.isEmpty then none else
  let (u, r3) := r2.span (fun c => ¬ pySpace c)
  if u.isEmpty then none else
  let (w2, r4) := r3.span pySpace
  if w2.isEmpty then none else
  let v := r4.takeWhile (fun c => ¬ pySpace c)
  if v.isEmpty then none else some (String.mk m, String.mk u, String.mk v)

/-- `ELBLogAnalyzer._parse_time_field`: the `-` sentinel maps to `0`, any
other token goes through `float`, a `ValueError` becomes `None`. -/
def parse_time_field (s : String) : Option ℚ :=
  if s = "-" then some 0 else pyFloat s

/-- One materialized log record (the dict returned by `_parse_log_line`). -/
structure LogRecord where
  timestamp : DateTime
  client_ip : String
  target_ip : Option String
  request_processing_time : ℚ
  target_processing_time : ℚ
  response_processing_time : ℚ
  elb_status_code : String
  target_status_code : String
  received_bytes : String
  sent_bytes : String
  request : String
  response_time : ℚ
  user_agent : String
  ssl_cipher : String
  ssl_protocol : String
  target_group_arn : String
  trace_id : String
  domain_name : String
  chosen_cert_arn : String
  matched_rule_priority : String
  request_creation_time : String
  actions_executed : String
  redirect_url : String
  error_reason : String
  target_port_list : String
  target_status_code_list : String
  classification : String
  classification_reason : String
  conn_trace_id : String
deriving DecidableEq, Repr

/-- The body of `_parse_log_line` after the regex has matched, in source
order: request sub-field check, the three duration fields, the
`None in [...]` rejection, timestamp parsing (whose `strptime` may raise —
the `Except.error` outcome), the user-agent placeholder check, then the
record literal.  `tz` is the composite
`_convert_to_timezone` ∘ `_remove_timezone` for the analyzer's configured
timezone (the identity when the timezone is UTC). -/
def buildRecord (tz : DateTime → DateTime) (data : RawLog) :
    Except Unit (Option LogRecord) :=
  match parseRequest data.request with
  | none => .ok none
  | some (_, url, _) =>
    match parse_time_field data.request_processing_time,
          parse_time_field data.target_processing_time,
          parse_time_field data.response_processing_time with
    | some rpt, some tpt, some spt =>
      match parseTimestamp data.timestamp with
      | none => .error ()
      | some ts =>
        if data.user_agent = "-" then .ok none
        else .ok (some
          { timestamp := tz ts
            client_ip := pySplitColonHead data.client_ip
            target_ip := if data.target_ip ≠ "-" then some (pySplitColonHead data.target_ip) else none
            request_processing_time := rpt
            target_processing_time := tpt
            response_processing_time := spt
            elb_status_code := data.elb_status_code
            target_status_code := data.target_status_code
            received_bytes := data.received_bytes
            sent_bytes := data.sent_bytes
            request := url
            response_time := rpt + tpt + spt
            user_agent := data.user_agent
            ssl_cipher := data.ssl_cipher
            ssl_protocol := data.ssl_protocol
            target_group_arn := data.target_group_arn
            trace_id := data.trace_id
            domain_name := data.domain_name
            chosen_cert_arn := data.chosen_cert_arn
            matched_rule_priority := data.matched_rule_priority
            request_creation_time := data.request_creation_time
            actions_executed := data.actions_executed
            redirect_url := data.redirect_url
            error_reason := data.error_reason
            target_port_list := data.target_port_list
            target_status_code_list := data.target_status_code_list
            classification := data.classification
            classification_reason := data.classification_reason
            conn_trace_id := data.conn_trace_id })
    | _, _, _ => .ok none

/-- `ELBLogAnalyzer._parse_log_line`: `.ok none` is Python `None`
(the line is dropped), `.ok (some r)` is a returned record, `.error ()`
is an exception escaping the function. -/
def parse_log_line (tz : DateTime → DateTime) (line : String) :
    Except Unit (Option LogRecord) :=
  match matchGrammar line with
  | none => .ok none
  | some data => buildRecord tz data

/-- The record produced for a line, when parsing neither rejects nor
raises (convenience view of `parse_log_line` with a UTC analyzer, for
which the timezone conversion is the identity). -/
def parseRecOpt (line : String) : Option LogRecord :=
  match parse_log_line (fun t => t) line with
  | .ok r => r
  | .error _ => none

/-! ## Aggregation (`analyze_logs`, `_categorize_log_entry` and the
dataframe builders)

Python `defaultdict(int)` / `Counter` objects become association lists in
insertion order: incrementing an existing key keeps its position, a new key
is appended (CPython dict order), which is what `Counter.most_common`'s
tie-breaking below depends on. -/

/-- `d[k] += 1` on a `defaultdict(int)` / `Counter`: increment in place,
append a fresh key at the end. -/
def bump {κ : Type} [DecidableEq κ] (k : κ) : List (κ × Nat) → List (κ × Nat)
  | [] => [(k, 1)]
  | (k', n) :: rest => if k' = k then (k', n + 1) :: rest else (k', n) :: bump k rest

/-- Add `m` to key `k` (used for the pandas `groupby(...).sum()` step). -/
def bumpAdd {κ : Type} [DecidableEq κ] (k : κ) (m : Nat) :
    List (κ × Nat) → List (κ × Nat)
  | [] => [(k, m)]
  | (k', n) :: rest => if k' = k then (k', n + m) :: rest else (k', n) :: bumpAdd k m rest

/-- Total of the counts in a counter / of the `Count` column. -/
def sumCounts {κ : Type} (l : List (κ × Nat)) : Nat :=
  (l.map (·.2)).sum

instance :
    DecidableEq (DateTime × String × Option String × String × String × String × String) :=
  instDecidableEqProd

instance :
    DecidableEq (ℚ × DateTime × String × Option String × String × String × String) :=
  instDecidableEqProd

/-- The 6-tuple aggregation key
`(timestamp, client_ip, target_ip, request, elb_status_code, target_status_code)`. -/
def keyOf (r : LogRecord) : DateTime × String × Option String × String × String × String :=
  (r.timestamp, r.client_ip, r.target_ip, r.request, r.elb_status_code, r.target_status_code)

/-- The 7-tuple key used for the 3xx bucket, which additionally carries
`redirect_url` between `request` and the status codes. -/
def key3Of (r : LogRecord) :
    DateTime × String × Option String × String × String × String × String :=
  (r.timestamp, r.client_ip, r.target_ip, r.request, r.redirect_url,
   r.elb_status_code, r.target_status_code)

/-- The mutable state threaded through the `analyze_logs` loop: the six
status-bucket counters, the slow-request list, and the three `Counter`s. -/
structure AnalyzeState where
  elb_2xx_counts : List ((DateTime × String × Option String × String × String × String) × Nat)
  elb_3xx_counts : List ((DateTime × String × Option String × String × String × String × String) × Nat)
  elb_4xx_counts : List ((DateTime × String × Option String × String × String × String) × Nat)
  elb_5xx_counts : List ((DateTime × String × Option String × String × String × String) × Nat)
  target_4xx_counts : List ((DateTime × String × Option String × String × String × String) × Nat)
  target_5xx_counts : List ((DateTime × String × Option String × String × String × String) × Nat)
  long_response_times : List LogRecord
  client_ip_counter : List (String × Nat)
  user_agent_counter : List (String × Nat)
  request_url_counter : List (String × Nat)

/-- The empty initial state of `analyze_logs`. -/
def initState : AnalyzeState := ⟨[], [], [], [], [], [], [], [], [], []⟩

/-- `ELBLogAnalyzer._categorize_log_entry`: the `if/elif` chain on the first
character of the ELB status code, the independent `if/elif` chain on the
first character of the backend status code, and the slow-request capture at
threshold `1.0`. -/
def _categorize_log_entry (s : AnalyzeState) (r : LogRecord) : AnalyzeState :=
  let s :=
    if pyStartsWith r.elb_status_code "2" then
      { s with elb_2xx_counts := bump (keyOf r) s.elb_2xx_counts }
    else if pyStartsWith r.elb_status_code "3" then
      { s with elb_3xx_counts := bump (key3Of r) s.elb_3xx_counts }
    else if pyStartsWith r.elb_status_code "4" then
      { s with elb_4xx_counts := bump (keyOf r) s.elb_4xx_counts }
    else if pyStartsWith r.elb_status_code "5" then
      { s with elb_5xx_counts := bump (keyOf r) s.elb_5xx_counts }
    else s
  let s :=
    if pyStartsWith r.target_status_code "4" then
      { s with target_4xx_counts := bump (keyOf r) s.target_4xx_counts }
    else if pyStartsWith r.target_status_code "5" then
      { s with target_5xx_counts := bump (keyOf r) s.target_5xx_counts }
    else s
  if (1 : ℚ) ≤ r.response_time then
    { s with long_response_times := s.long_response_times ++ [r] }
  else s

/-- One iteration of the `analyze_logs` loop: categorize the record, then
count its client address, user agent and request URL. -/
def analyzeStep (s : AnalyzeState) (r : LogRecord) : AnalyzeState :=
  let s := _categorize_log_entry s r
  { s with
    client_ip_counter := bump r.client_ip s.client_ip_counter
    user_agent_counter := bump r.user_agent s.user_agent_counter
    request_url_counter := bump r.request s.request_url_counter }

/-- `most_common`'s ordering on index-decorated counter entries, exactly as
`heapq.nlargest(n, items, key=count)` realizes it: larger count first, equal
counts broken by smaller original position (the decoration `nlargest` adds
to make the selection stable). -/
def nlargestRel {α : Type} : (Nat × (α × Nat)) → (Nat × (α × Nat)) → Prop :=
  fun a b => b.2.2 < a.2.2 ∨ (a.2.2 = b.2.2 ∧ a.1 ≤ b.1)

instance {α : Type} : DecidableRel (@nlargestRel α) := fun _ _ => by
  unfold nlargestRel; infer_instance

instance {α : Type} : IsTotal (Nat × (α × Nat)) nlargestRel where
  total a b := by
    rcases Nat.lt_trichotomy a.2.2 b.2.2 with h | h | h
    · exact Or.inr (Or.inl h)
    · rcases Nat.le_total a.1 b.1 with h' | h'
      · exact Or.inl (Or.inr ⟨h, h'⟩)
      · exact Or.inr (Or.inr ⟨h.symm, h'⟩)
    · exact Or.inl (Or.inl h)

instance {α : Type} : IsTrans (Nat × (α × Nat)) nlargestRel where
  trans a b c hab hbc := by
    rcases hab with h1 | ⟨e1, i1⟩ <;> rcases hbc with h2 | ⟨e2, i2⟩
    · exact Or.inl (h2.trans h1)
    · exact Or.inl (e2 ▸ h1)
    · exact Or.inl (h2.trans_eq e1.symm)
    · exact Or.inr ⟨e1.trans e2, i1.trans i2⟩

/-- `Counter.most_common(n)`: `heapq.nlargest(n, items, key=itemgetter(1))`,
i.e. a stable selection of the `n` largest-count entries — modelled as a
stable sort of the index-decorated entries by `nlargestRel` followed by
`take n`. -/
def most_common {α : Type} (n : Nat) (c : List (α × Nat)) : List (α × Nat) :=
  ((List.insertionSort nlargestRel c.enum).map Prod.snd).take n

/-- Descending-count order used by `sort_values('Count', ascending=False)`. -/
def countDesc {κ : Type} : (κ × Nat) → (κ × Nat) → Prop :=
  fun a b => b.2 ≤ a.2

instance {κ : Type} : DecidableRel (@countDesc κ) := fun _ _ => Nat.decLe _ _

instance {κ : Type} : IsTotal (κ × Nat) countDesc :=
  ⟨fun a b => (Nat.le_total b.2 a.2).imp id id⟩

instance {κ : Type} : IsTrans (κ × Nat) countDesc :=
  ⟨fun _ _ _ hab hbc => Nat.le_trans hbc hab⟩

/-- `ELBLogAnalyzer._create_status_code_dataframe`: project each
`(key, count)` item to `(Count, key[1], key[3], key[4], key[5])`
= `(Count, Client IP, Request, ELB Status Code, Backend Status Code)`,
group by the four non-count columns summing `Count`, and sort by `Count`
descending.  (Row order among equal keys/counts is presentational and not
part of any claim; grouping is modelled in first-occurrence order.) -/
def _create_status_code_dataframe
    (counts : List ((DateTime × String × Option String × String × String × String) × Nat)) :
    List (Nat × String × String × String × String) :=
  let rows := counts.map fun kv =>
    ((kv.1.2.1, kv.1.2.2.2.1, kv.1.2.2.2.2.1, kv.1.2.2.2.2.2), kv.2)
  let grouped := rows.foldl (fun acc kv => bumpAdd kv.1 kv.2 acc) []
  (List.insertionSort countDesc grouped).map fun kv =>
    (kv.2, kv.1.1, kv.1.2.1, kv.1.2.2.1, kv.1.2.2.2)

/-- `ELBLogAnalyzer._create_3xx_status_code_dataframe`: as above but with
`(Count, key[1], key[3], key[4], key[5], key[6])`
= `(Count, Client IP, Request, Redirect URL, ELB Status Code,
Backend Status Code)`. -/
def _create_3xx_status_code_dataframe
    (counts : List ((DateTime × String × Option String × String × String × String × String) × Nat)) :
    List (Nat × String × String × String × String × String) :=
  let rows := counts.map fun kv =>
    ((kv.1.2.1, kv.1.2.2.2.1, kv.1.2.2.2.2.1, kv.1.2.2.2.2.2.1, kv.1.2.2.2.2.2.2), kv.2)
  let grouped := rows.foldl (fun acc kv => bumpAdd kv.1 kv.2 acc) []
  (List.insertionSort countDesc grouped).map fun kv =>
    (kv.2, kv.1.1, kv.1.2.1, kv.1.2.2.1, kv.1.2.2.2.1, kv.1.2.2.2.2)

/-- An injective numeric key for ordering `DateTime`s whose fields are in
their calendar ranges (pandas' chronological sort of the `Timestamp`
column). -/
def dtKey (t : DateTime) : Nat :=
  ((((t.year * 13 + t.month) * 32 + t.day) * 24 + t.hour) * 60 + t.minute) * 62 * 1000000
    + t.second * 1000000 + t.microsecond

/-- Ascending-timestamp order used by `sort_values('Timestamp')`. -/
def tsAsc : (DateTime × String × Option String × String × String × String) →
    (DateTime × String × Option String × String × String × String) → Prop :=
  fun a b => dtKey a.1 ≤ dtKey b.1

instance : DecidableRel tsAsc := fun _ _ => Nat.decLe _ _

instance : IsTotal (DateTime × String × Option String × String × String × String) tsAsc :=
  ⟨fun a b => (Nat.le_total (dtKey a.1) (dtKey b.1)).imp id id⟩

instance : IsTrans (DateTime × String × Option String × String × String × String) tsAsc :=
  ⟨fun _ _ _ hab hbc => Nat.le_trans hab hbc⟩

/-- `ELBLogAnalyzer._create_timestamp_dataframe`: one row per aggregation
key, sorted by timestamp ascending (the final `strftime` re-rendering of the
timestamp is presentational and not modelled). -/
def _create_timestamp_dataframe
    (counts : List ((DateTime × String × Option String × String × String × String) × Nat)) :
    List (DateTime × String × Option String × String × String × String) :=
  List.insertionSort tsAsc (counts.map (·.1))

/-- Descending order on the `Response time` column. -/
def rtDesc : (ℚ × DateTime × String × Option String × String × String × String) →
    (ℚ × DateTime × String × Option String × String × String × String) → Prop :=
  fun a b => b.1 ≤ a.1

instance : DecidableRel rtDesc := fun a b => Rat.instDecidableLe b.1 a.1

instance : IsTotal (ℚ × DateTime × String × Option String × String × String × String) rtDesc :=
  ⟨fun a b => (le_total b.1 a.1).imp id id⟩

instance : IsTrans (ℚ × DateTime × String × Option String × String × String × String) rtDesc :=
  ⟨fun _ _ _ hab hbc => le_trans hbc hab⟩

/-- The row projection of `_create_long_response_times_dataframe`:
`(Response time, Timestamp, Client IP, Target IP, Request,
ELB Status Code, Backend Status Code)`. -/
def slowRow (r : LogRecord) :
    ℚ × DateTime × String × Option String × String × String × String :=
  (r.response_time, r.timestamp, r.client_ip, r.target_ip, r.request,
   r.elb_status_code, r.target_status_code)

/-- `ELBLogAnalyzer._create_long_response_times_dataframe`: one row per
captured slow record, sorted by `Response time` descending, truncated by
`head(100)`. -/
def _create_long_response_times_dataframe (long_response_times : List LogRecord) :
    List (ℚ × DateTime × String × Option String × String × String × String) :=
  (List.insertionSort rtDesc (long_response_times.map slowRow)).take 100

/-- `ELBLogAnalyzer._create_top_client_ips_dataframe`: columns
`(Count, Client IP, Abuse)`, the flag `'Yes'` iff the address is in the
reputation set, `'No'` otherwise. -/
def _create_top_client_ips_dataframe (top_client_ips : List (String × Nat))
    (abuse_ip_set : List String) : List (Nat × String × String) :=
  top_client_ips.map fun kv =>
    (kv.2, kv.1, if kv.1 ∈ abuse_ip_set then "Yes" else "No")

/-- `ELBLogAnalyzer._create_top_request_url_dataframe`: columns
`(Count, Request URL)`. -/
def _create_top_request_url_dataframe (top : List (String × Nat)) :
    List (Nat × String) :=
  top.map fun kv => (kv.2, kv.1)

/-- `ELBLogAnalyzer._create_top_user_agents_dataframe`: columns
`(Count, User Agent)`. -/
def _create_top_user_agents_dataframe (top : List (String × Nat)) :
    List (Nat × String) :=
  top.map fun kv => (kv.2, kv.1)

/-- Helper for `pySplitlines`: `acc` holds the current line reversed. -/
def splitLinesAux : List Char → List Char → List String
  | [], acc => if acc.isEmpty then [] else [String.mk acc.reverse]
  | '\n' :: rest, acc => String.mk acc.reverse :: splitLinesAux rest []
  | c :: rest, acc => splitLinesAux rest (c :: acc)

/-- Python `str.splitlines()` restricted to `'\n'` separators (the only
separator relevant to the newline-delimited reputation list): split on
newlines, without a trailing empty piece. -/
def pySplitlines (s : String) : List String :=
  splitLinesAux s.data []

/-- `download_abuseipdb` as implemented in the repository
(`test/abuse_ip.py`; the analyzer imports the same-named function from
`src.utils`): `requests.get` of the newline-delimited blocklist followed by
`response.raise_for_status()` and `set(response.text.splitlines())`.  The
transport is abstracted as `fetch`: `some body` is a 200 response with that
body, `none` a network error or an error status — on which
`raise_for_status` (or `requests.get` itself) raises, embedded as
`.error`. -/
def download_abuseipdb (fetch : Option String) : Except Unit (List String) :=
  match fetch with
  | some body => .ok (pySplitlines body)
  | none => .error ()

/-- The bundle of named result tables returned by `analyze_logs`. -/
structure AnalysisResult where
  top_100_client_ip : List (Nat × String × String)
  top_100_request_url : List (Nat × String)
  top_100_user_agents : List (Nat × String)
  top_100_response_time : List (ℚ × DateTime × String × Option String × String × String × String)
  elb_2xx_count : List (Nat × String × String × String × String)
  elb_3xx_count : List (Nat × String × String × String × String × String)
  elb_4xx_count : List (Nat × String × String × String × String)
  elb_4xx_timestamp : List (DateTime × String × Option String × String × String × String)
  elb_5xx_count : List (Nat × String × String × String × String)
  elb_5xx_timestamp : List (DateTime × String × Option String × String × String × String)
  backend_4xx_count : List (Nat × String × String × String × String)
  backend_4xx_timestamp : List (DateTime × String × Option String × String × String × String)
  backend_5xx_count : List (Nat × String × String × String × String)
  backend_5xx_timestamp : List (DateTime × String × Option String × String × String × String)
deriving DecidableEq

/-- The table-building body of `ELBLogAnalyzer.analyze_logs`, with the
already-fetched reputation set injected: fold the categorize-and-count loop
over the records, take the three `most_common(100)` rankings, and build the
fourteen named tables.  Only the `top_100_client_ip` table consults
`abuse_ip_set`. -/
def build_analysis (parsed_logs : List LogRecord) (abuse_ip_set : List String) :
    AnalysisResult :=
  let st := parsed_logs.foldl analyzeStep initState
  let top_client_ips := most_common 100 st.client_ip_counter
  let top_user_agents := most_common 100 st.user_agent_counter
  let top_request_urls := most_common 100 st.request_url_counter
  { top_100_client_ip := _create_top_client_ips_dataframe top_client_ips abuse_ip_set
    top_100_request_url := _create_top_request_url_dataframe top_request_urls
    top_100_user_agents := _create_top_user_agents_dataframe top_user_agents
    top_100_response_time := _create_long_response_times_dataframe st.long_response_times
    elb_2xx_count := _create_status_code_dataframe st.elb_2xx_counts
    elb_3xx_count := _create_3xx_status_code_dataframe st.elb_3xx_counts
    elb_4xx_count := _create_status_code_dataframe st.elb_4xx_counts
    elb_4xx_timestamp := _create_timestamp_dataframe st.elb_4xx_counts
    elb_5xx_count := _create_status_code_dataframe st.elb_5xx_counts
    elb_5xx_timestamp := _create_timestamp_dataframe st.elb_5xx_counts
    backend_4xx_count := _create_status_code_dataframe st.target_4xx_counts
    backend_4xx_timestamp := _create_timestamp_dataframe st.target_4xx_counts
    backend_5xx_count := _create_status_code_dataframe st.target_5xx_counts
    backend_5xx_timestamp := _create_timestamp_dataframe st.target_5xx_counts }

/-- `ELBLogAnalyzer.analyze_logs`: the bare `abuse_ip_set =
download_abuseipdb()` call sits between the counting loop and the table
construction with no surrounding `try`, so a failed fetch raises out of
`analyze_logs` (`.error`, to be caught only by `process_logs`' generic
handler); on a successful fetch the fetched lines feed the table
construction of `build_analysis`. -/
def analyze_logs (parsed_logs : List LogRecord) (fetch : Option String) :
    Except Unit AnalysisResult :=
  match download_abuseipdb fetch with
  | .error e => .error e
  | .ok abuse_ip_set => .ok (build_analysis parsed_logs abuse_ip_set)

/-! ## Report writing (`save_to_excel` / `create_sheet`) -/

/-- The hard per-sheet row ceiling of `save_to_excel`. -/
def max_rows_per_sheet : Nat := 1048576

/-- The title of chunk `sheet_index` of a table: the base name truncated to
25 characters, a `_<index+1>` suffix for chunks beyond the first, the whole
truncated to the platform's 31-character sheet-name maximum. -/
def sheet_title (sheet_name : String) (sheet_index : Nat) : String :=
  let sheet_suffix := if sheet_index > 0 then "_" ++ toString (sheet_index + 1) else ""
  String.mk ((sheet_name.data.take 25 ++ sheet_suffix.data).take 31)

/-- `create_sheet` inside `save_to_excel`: iterate
`sheet_index ∈ range(total_rows // max_rows + 1)`, slice
`df.iloc[i*max_rows : (i+1)*max_rows]`, skip empty slices, and emit one
named sheet per remaining slice. -/
def create_sheet {ρ : Type} (maxRows : Nat) (sheet_name : String) (df : List ρ) :
    List (String × List ρ) :=
  (List.range (df.length / maxRows + 1)).filterMap fun sheet_index =>
    let current := (df.drop (sheet_index * maxRows)).take maxRows
    if current.isEmpty then none
    else some (sheet_title sheet_name sheet_index, current)

/-! ## Run-level control flow (`main.process_logs`)

The pipeline stages and their exception outcomes are abstracted: a
`RunScript` records, for each stage, whether it returns normally (`none`)
or raises, and with which of the exception classes distinguished by
`process_logs`'s handlers.  The model returns the list of directories that
get cleaned on that run. -/

/-- The exception classes distinguished by `main.process_logs`. -/
inductive Exc where
  | clientError : Exc
  | noRegionError : Exc
  | other : Exc
deriving DecidableEq

/-- The directories whose cleanup is at stake. -/
inductive Dir where
  | gz : Dir
  | log : Dir
  | report : Dir
deriving DecidableEq

/-- The outcome of each stage of one run: `none` = the stage returns,
`some e` = the stage raises `e` (the stages after a raising one never run);
`parsed_nonempty` is whether `parse_logs` returned any records (when it
does not, `analyze_logs` and `save_to_excel` are skipped). -/
structure RunScript where
  download : Option Exc
  decompress : Option Exc
  parse : Option Exc
  parsed_nonempty : Bool
  analyze : Option Exc
  save : Option Exc
deriving DecidableEq

/-- What an escaping exception leads to in `process_logs`: the
`ClientError` and `NoRegionError` handlers only log; the generic handler
retries `clean_up([gz_directory, log_directory])`, which cleans both
staging directories when both names are assigned and raises `NameError`
(cleaning nothing) otherwise. -/
def except_cleanup (e : Exc) (gz_assigned log_assigned : Bool) : List Dir :=
  match e with
  | .clientError => []
  | .noRegionError => []
  | .other => if gz_assigned && log_assigned then [Dir.gz, Dir.log] else []

/-- `main.process_logs`: run the stages in order (`gz_directory` is assigned
by the download stage, `log_directory` by the decompress stage), clean both
staging directories after a completed run, and dispatch escaping exceptions
to `except_cleanup`.  Returns the list of directories cleaned. -/
def process_logs (s : RunScript) : List Dir :=
  match s.download with
  | some e => except_cleanup e false false
  | none =>
    match s.decompress with
    | some e => except_cleanup e true false
    | none =>
      match s.parse with
      | some e => except_cleanup e true true
      | none =>
        if s.parsed_nonempty then
          match s.analyze with
          | some e => except_cleanup e true true
          | none =>
            match s.save with
            | some e => except_cleanup e true true
            | none => [Dir.gz, Dir.log]
        else [Dir.gz, Dir.log]

/-! ## Supporting lemmas -/

theorem sumCounts_bump {κ : Type} [DecidableEq κ] (k : κ) (l : List (κ × Nat)) :
    sumCounts (bump k l) = sumCounts l + 1 := by
  induction l with
  | nil => rfl
  | cons kv rest ih =>
    obtain ⟨k', n⟩ := kv
    by_cases h : k' = k <;> simp only [bump, h, if_true, if_false, sumCounts,
      List.map_cons, List.sum_cons] <;>
      simp only [sumCounts, List.map_cons, List.sum_cons] at ih ⊢ <;> omega

theorem sumCounts_bumpAdd {κ : Type} [DecidableEq κ] (k : κ) (m : Nat) (l : List (κ × Nat)) :
    sumCounts (bumpAdd k m l) = sumCounts l + m := by
  induction l with
  | nil => simp [bumpAdd, sumCounts]
  | cons kv rest ih =>
    obtain ⟨k', n⟩ := kv
    by_cases h : k' = k <;> simp only [bumpAdd, h, if_true, if_false, sumCounts,
      List.map_cons, List.sum_cons] <;>
      simp only [sumCounts, List.map_cons, List.sum_cons] at ih ⊢ <;> omega

theorem sumCounts_perm {κ : Type} {l l' : List (κ × Nat)} (h : l.Perm l') :
    sumCounts l = sumCounts l' := by
  unfold sumCounts
  exact (h.map (·.2)).sum_eq

/-- The first character of a Python `startswith` match against a
single-character prefix. -/
theorem pyStartsWith_head {c : Char} {s : String}
    (h : pyStartsWith s ⟨[c]⟩ = true) : s.data.head? = some c := by
  unfold pyStartsWith at h
  cases hd : s.data with
  | nil => rw [hd] at h; simp [List.isPrefixOf] at h
  | cons x xs =>
    rw [hd] at h
    simp only [List.isPrefixOf, List.isPrefixOf_nil_left, Bool.and_true, beq_iff_eq] at h
    simp [h]

/-- A string starts with at most one single-character prefix. -/
theorem pyStartsWith_excl {c c' : Char} (hne : c ≠ c') {s : String}
    (h : pyStartsWith s ⟨[c]⟩ = true) : pyStartsWith s ⟨[c']⟩ = false := by
  by_contra h'
  have h'' : pyStartsWith s ⟨[c']⟩ = true := by
    cases hb : pyStartsWith s ⟨[c']⟩
    · exact absurd hb h'
    · rfl
  have e1 := pyStartsWith_head h
  have e2 := pyStartsWith_head h''
  rw [e1] at e2
  exact hne (Option.some.injEq _ _ ▸ e2)

/-! ### Componentwise behaviour of the `analyze_logs` loop -/

theorem analyzeStep_elb2 (s : AnalyzeState) (r : LogRecord) :
    (analyzeStep s r).elb_2xx_counts =
      if pyStartsWith r.elb_status_code "2" then bump (keyOf r) s.elb_2xx_counts
      else s.elb_2xx_counts := by
  simp only [analyzeStep, _categorize_log_entry]
  split_ifs <;> rfl

theorem analyzeStep_elb3 (s : AnalyzeState) (r : LogRecord) :
    (analyzeStep s r).elb_3xx_counts =
      if pyStartsWith r.elb_status_code "3" then bump (key3Of r) s.elb_3xx_counts
      else s.elb_3xx_counts := by
  by_cases h2 : pyStartsWith r.elb_status_code "2" = true
  · have h3 : pyStartsWith r.elb_status_code "3" = false := pyStartsWith_excl (by decide) h2
    simp only [analyzeStep, _categorize_log_entry, h2, h3, if_true, Bool.false_eq_true, if_false]
    split_ifs <;> rfl
  · by_cases h3 : pyStartsWith r.elb_status_code "3" = true
    · simp only [analyzeStep, _categorize_log_entry, h2, h3, if_true, Bool.false_eq_true,
        if_false]
      split_ifs <;> rfl
    · simp only [analyzeStep, _categorize_log_entry, h2, h3, Bool.false_eq_true, if_false]
      split_ifs <;> rfl

theorem analyzeStep_elb4 (s : AnalyzeState) (r : LogRecord) :
    (analyzeStep s r).elb_4xx_counts =
      if pyStartsWith r.elb_status_code "4" then bump (keyOf r) s.elb_4xx_counts
      else s.elb_4xx_counts := by
  by_cases h2 : pyStartsWith r.elb_status_code "2" = true
  · have h4 : pyStartsWith r.elb_status_code "4" = false := pyStartsWith_excl (by decide) h2
    simp only [analyzeStep, _categorize_log_entry, h2, h4, if_true, Bool.false_eq_true, if_false]
    split_ifs <;> rfl
  · by_cases h3 : pyStartsWith r.elb_status_code "3" = true
    · have h4 : pyStartsWith r.elb_status_code "4" = false := pyStartsWith_excl (by decide) h3
      simp only [analyzeStep, _categorize_log_entry, h2, h3, h4, if_true,
        Bool.false_eq_true, if_false]
      split_ifs <;> rfl
    · simp only [analyzeStep, _categorize_log_entry, h2, h3, Bool.false_eq_true, if_false]
      by_cases h4 : pyStartsWith r.elb_status_code "4" = true <;>
        simp only [h4, if_true, Bool.false_eq_true, if_false] <;>
        split_ifs <;> rfl

theorem analyzeStep_elb5 (s : AnalyzeState) (r : LogRecord) :
    (analyzeStep s r).elb_5xx_counts =
      if pyStartsWith r.elb_status_code "5" then bump (keyOf r) s.elb_5xx_counts
      else s.elb_5xx_counts := by
  by_cases h2 : pyStartsWith r.elb_status_code "2" = true
  · have h5 : pyStartsWith r.elb_status_code "5" = false := pyStartsWith_excl (by decide) h2
    simp only [analyzeStep, _categorize_log_entry, h2, h5, if_true, Bool.false_eq_true, if_false]
    split_ifs <;> rfl
  · by_cases h3 : pyStartsWith r.elb_status_code "3" = true
    · have h5 : pyStartsWith r.elb_status_code "5" = false := pyStartsWith_excl (by decide) h3
      simp only [analyzeStep, _categorize_log_entry, h2, h3, h5, if_true,
        Bool.false_eq_true, if_false]
      split_ifs <;> rfl
    · by_cases h4 : pyStartsWith r.elb_status_code "4" = true
      · have h5 : pyStartsWith r.elb_status_code "5" = false := pyStartsWith_excl (by decide) h4
        simp only [analyzeStep, _categorize_log_entry, h2, h3, h4, h5, if_true,
          Bool.false_eq_true, if_false]
        split_ifs <;> rfl
      · simp only [analyzeStep, _categorize_log_entry, h2, h3, h4, Bool.false_eq_true, if_false]
        by_cases h5 : pyStartsWith r.elb_status_code "5" = true <;>
          simp only [h5, if_true, Bool.false_eq_true, if_false] <;>
          split_ifs <;> rfl

theorem analyzeStep_target4 (s : AnalyzeState) (r : LogRecord) :
    (analyzeStep s r).target_4xx_counts =
      if pyStartsWith r.target_status_code "4" then bump (keyOf r) s.target_4xx_counts
      else s.target_4xx_counts := by
  simp only [analyzeStep, _categorize_log_entry]
  by_cases h4 : pyStartsWith r.target_status_code "4" = true <;>
    simp only [h4, if_true, Bool.false_eq_true, if_false] <;>
    split_ifs <;> rfl

theorem analyzeStep_target5 (s : AnalyzeState) (r : LogRecord) :
    (analyzeStep s r).target_5xx_counts =
      if pyStartsWith r.target_status_code "5" then bump (keyOf r) s.target_5xx_counts
      else s.target_5xx_counts := by
  by_cases h4 : pyStartsWith r.target_status_code "4" = true
  · have h5 : pyStartsWith r.target_status_code "5" = false := pyStartsWith_excl (by decide) h4
    simp only [analyzeStep, _categorize_log_entry, h4, h5, if_true, Bool.false_eq_true, if_false]
    split_ifs <;> rfl
  · simp only [analyzeStep, _categorize_log_entry, h4, Bool.false_eq_true, if_false]
    by_cases h5 : pyStartsWith r.target_status_code "5" = true <;>
      simp only [h5, if_true, Bool.false_eq_true, if_false] <;>
      split_ifs <;> rfl

theorem analyzeStep_long (s : AnalyzeState) (r : LogRecord) :
    (analyzeStep s r).long_response_times =
      if (1 : ℚ) ≤ r.response_time then s.long_response_times ++ [r]
      else s.long_response_times := by
  simp only [analyzeStep, _categorize_log_entry]
  split_ifs <;> rfl

theorem analyzeStep_client (s : AnalyzeState) (r : LogRecord) :
    (analyzeStep s r).client_ip_counter = bump r.client_ip s.client_ip_counter := by
  simp only [analyzeStep, _categorize_log_entry]
  split_ifs <;> rfl

theorem analyzeStep_agent (s : AnalyzeState) (r : LogRecord) :
    (analyzeStep s r).user_agent_counter = bump r.user_agent s.user_agent_counter := by
  simp only [analyzeStep, _categorize_log_entry]
  split_ifs <;> rfl

theorem analyzeStep_url (s : AnalyzeState) (r : LogRecord) :
    (analyzeStep s r).request_url_counter = bump r.request s.request_url_counter := by
  simp only [analyzeStep, _categorize_log_entry]
  split_ifs <;> rfl



/-! ### Totals of the bucket counters over the loop -/

theorem fold_elb2 (recs : List LogRecord) (s : AnalyzeState) :
    sumCounts ((recs.foldl analyzeStep s).elb_2xx_counts) =
      sumCounts s.elb_2xx_counts +
        recs.countP (fun r => pyStartsWith r.elb_status_code "2") := by
  induction recs generalizing s with
  | nil => simp
  | cons r rest ih =>
    simp only [List.foldl_cons, List.countP_cons, ih, analyzeStep_elb2]
    by_cases h : pyStartsWith r.elb_status_code "2" = true <;>
      simp only [h, if_true, Bool.false_eq_true, if_false, sumCounts_bump] <;> omega

theorem fold_elb3 (recs : List LogRecord) (s : AnalyzeState) :
    sumCounts ((recs.foldl analyzeStep s).elb_3xx_counts) =
      sumCounts s.elb_3xx_counts +
        recs.countP (fun r => pyStartsWith r.elb_status_code "3") := by
  induction recs generalizing s with
  | nil => simp
  | cons r rest ih =>
    simp only [List.foldl_cons, List.countP_cons, ih, analyzeStep_elb3]
    by_cases h : pyStartsWith r.elb_status_code "3" = true <;>
      simp only [h, if_true, Bool.false_eq_true, if_false, sumCounts_bump] <;> omega

theorem fold_elb4 (recs : List LogRecord) (s : AnalyzeState) :
    sumCounts ((recs.foldl analyzeStep s).elb_4xx_counts) =
      sumCounts s.elb_4xx_counts +
        recs.countP (fun r => pyStartsWith r.elb_status_code "4") := by
  induction recs generalizing s with
  | nil => simp
  | cons r rest ih =>
    simp only [List.foldl_cons, List.countP_cons, ih, analyzeStep_elb4]
    by_cases h : pyStartsWith r.elb_status_code "4" = true <;>
      simp only [h, if_true, Bool.false_eq_true, if_false, sumCounts_bump] <;> omega

theorem fold_elb5 (recs : List LogRecord) (s : AnalyzeState) :
    sumCounts ((recs.foldl analyzeStep s).elb_5xx_counts) =
      sumCounts s.elb_5xx_counts +
        recs.countP (fun r => pyStartsWith r.elb_status_code "5") := by
  induction recs generalizing s with
  | nil => simp
  | cons r rest ih =>
    simp only [List.foldl_cons, List.countP_cons, ih, analyzeStep_elb5]
    by_cases h : pyStartsWith r.elb_status_code "5" = true <;>
      simp only [h, if_true, Bool.false_eq_true, if_false, sumCounts_bump] <;> omega

theorem fold_target4 (recs : List LogRecord) (s : AnalyzeState) :
    sumCounts ((recs.foldl analyzeStep s).target_4xx_counts) =
      sumCounts s.target_4xx_counts +
        recs.countP (fun r => pyStartsWith r.target_status_code "4") := by
  induction recs generalizing s with
  | nil => simp
  | cons r rest ih =>
    simp only [List.foldl_cons, List.countP_cons, ih, analyzeStep_target4]
    by_cases h : pyStartsWith r.target_status_code "4" = true <;>
      simp only [h, if_true, Bool.false_eq_true, if_false, sumCounts_bump] <;> omega

theorem fold_target5 (recs : List LogRecord) (s : AnalyzeState) :
    sumCounts ((recs.foldl analyzeStep s).target_5xx_counts) =
      sumCounts s.target_5xx_counts +
        recs.countP (fun r => pyStartsWith r.target_status_code "5") := by
  induction recs generalizing s with
  | nil => simp
  | cons r rest ih =>
    simp only [List.foldl_cons, List.countP_cons, ih, analyzeStep_target5]
    by_cases h : pyStartsWith r.target_status_code "5" = true <;>
      simp only [h, if_true, Bool.false_eq_true, if_false, sumCounts_bump] <;> omega

theorem fold_long (recs : List LogRecord) (s : AnalyzeState) :
    (recs.foldl analyzeStep s).long_response_times =
      s.long_response_times ++ recs.filter (fun r => (1 : ℚ) ≤ r.response_time) := by
  induction recs generalizing s with
  | nil => simp
  | cons r rest ih =>
    simp only [List.foldl_cons, ih, analyzeStep_long, List.filter_cons]
    by_cases h : ((1 : ℚ) ≤ r.response_time) <;>
      simp [h]

/-- The Python `Counter` built by iterating `counter[proj(r)] += 1`. -/
def counterOf (proj : LogRecord → String) (recs : List LogRecord) : List (String × Nat) :=
  recs.foldl (fun c r => bump (proj r) c) []

theorem fold_counter_client (recs : List LogRecord) (s : AnalyzeState) :
    (recs.foldl analyzeStep s).client_ip_counter =
      recs.foldl (fun c r => bump r.client_ip c) s.client_ip_counter := by
  induction recs generalizing s with
  | nil => rfl
  | cons r rest ih => simp only [List.foldl_cons, ih, analyzeStep_client]

theorem fold_counter_agent (recs : List LogRecord) (s : AnalyzeState) :
    (recs.foldl analyzeStep s).user_agent_counter =
      recs.foldl (fun c r => bump r.user_agent c) s.user_agent_counter := by
  induction recs generalizing s with
  | nil => rfl
  | cons r rest ih => simp only [List.foldl_cons, ih, analyzeStep_agent]

theorem fold_counter_url (recs : List LogRecord) (s : AnalyzeState) :
    (recs.foldl analyzeStep s).request_url_counter =
      recs.foldl (fun c r => bump r.request c) s.request_url_counter := by
  induction recs generalizing s with
  | nil => rfl
  | cons r rest ih => simp only [List.foldl_cons, ih, analyzeStep_url]

/-! ### The dataframe builders preserve count totals -/

theorem sumCounts_groupFold {κ : Type} [DecidableEq κ]
    (rows : List (κ × Nat)) (init : List (κ × Nat)) :
    sumCounts (rows.foldl (fun acc kv => bumpAdd kv.1 kv.2 acc) init) =
      sumCounts init + sumCounts rows := by
  induction rows generalizing init with
  | nil => simp [sumCounts]
  | cons kv rest ih =>
    rw [List.foldl_cons, ih, sumCounts_bumpAdd]
    simp only [sumCounts, List.map_cons, List.sum_cons]
    omega

theorem df_status_sum
    (counts : List ((DateTime × String × Option String × String × String × String) × Nat)) :
    ((_create_status_code_dataframe counts).map (·.1)).sum = sumCounts counts := by
  unfold _create_status_code_dataframe
  rw [List.map_map]
  have h1 : ((List.insertionSort countDesc
      ((counts.map fun kv =>
        ((kv.1.2.1, kv.1.2.2.2.1, kv.1.2.2.2.2.1, kv.1.2.2.2.2.2), kv.2)).foldl
          (fun acc kv => bumpAdd kv.1 kv.2 acc) [])).map
        ((fun x => x.1) ∘ fun kv => (kv.2, kv.1.1, kv.1.2.1, kv.1.2.2.1, kv.1.2.2.2))).sum
      = sumCounts (List.insertionSort countDesc
      ((counts.map fun kv =>
        ((kv.1.2.1, kv.1.2.2.2.1, kv.1.2.2.2.2.1, kv.1.2.2.2.2.2), kv.2)).foldl
          (fun acc kv => bumpAdd kv.1 kv.2 acc) [])) := rfl
  rw [h1, sumCounts_perm (List.perm_insertionSort _ _), sumCounts_groupFold]
  simp only [sumCounts, List.map_nil, List.sum_nil, Nat.zero_add, List.map_map]
  rfl

theorem df_3xx_sum
    (counts : List ((DateTime × String × Option String × String × String × String × String) × Nat)) :
    ((_create_3xx_status_code_dataframe counts).map (·.1)).sum = sumCounts counts := by
  unfold _create_3xx_status_code_dataframe
  rw [List.map_map]
  have h1 : ((List.insertionSort countDesc
      ((counts.map fun kv =>
        ((kv.1.2.1, kv.1.2.2.2.1, kv.1.2.2.2.2.1, kv.1.2.2.2.2.2.1, kv.1.2.2.2.2.2.2), kv.2)).foldl
          (fun acc kv => bumpAdd kv.1 kv.2 acc) [])).map
        ((fun x => x.1) ∘ fun kv => (kv.2, kv.1.1, kv.1.2.1, kv.1.2.2.1, kv.1.2.2.2.1, kv.1.2.2.2.2))).sum
      = sumCounts (List.insertionSort countDesc
      ((counts.map fun kv =>
        ((kv.1.2.1, kv.1.2.2.2.1, kv.1.2.2.2.2.1, kv.1.2.2.2.2.2.1, kv.1.2.2.2.2.2.2), kv.2)).foldl
          (fun acc kv => bumpAdd kv.1 kv.2 acc) [])) := rfl
  rw [h1, sumCounts_perm (List.perm_insertionSort _ _), sumCounts_groupFold]
  simp only [sumCounts, List.map_nil, List.sum_nil, Nat.zero_add, List.map_map]
  rfl

/-! ### Mutual exclusion of the bucket memberships -/

theorem countP_elb_buckets_le (recs : List LogRecord) :
    recs.countP (fun r => pyStartsWith r.elb_status_code "2") +
    recs.countP (fun r => pyStartsWith r.elb_status_code "3") +
    recs.countP (fun r => pyStartsWith r.elb_status_code "4") +
    recs.countP (fun r => pyStartsWith r.elb_status_code "5") ≤ recs.length := by
  induction recs with
  | nil => simp
  | cons r rest ih =>
    simp only [List.countP_cons, List.length_cons]
    by_cases h2 : pyStartsWith r.elb_status_code "2" = true
    · have h3 : pyStartsWith r.elb_status_code "3" = false := pyStartsWith_excl (by decide) h2
      have h4 : pyStartsWith r.elb_status_code "4" = false := pyStartsWith_excl (by decide) h2
      have h5 : pyStartsWith r.elb_status_code "5" = false := pyStartsWith_excl (by decide) h2
      simp only [h2, h3, h4, h5, if_true, Bool.false_eq_true, if_false] at *; omega
    · by_cases h3 : pyStartsWith r.elb_status_code "3" = true
      · have h4 : pyStartsWith r.elb_status_code "4" = false := pyStartsWith_excl (by decide) h3
        have h5 : pyStartsWith r.elb_status_code "5" = false := pyStartsWith_excl (by decide) h3
        simp only [h2, h3, h4, h5, if_true, Bool.false_eq_true, if_false] at *; omega
      · by_cases h4 : pyStartsWith r.elb_status_code "4" = true
        · have h5 : pyStartsWith r.elb_status_code "5" = false := pyStartsWith_excl (by decide) h4
          simp only [h2, h3, h4, h5, if_true, Bool.false_eq_true, if_false] at *; omega
        · by_cases h5 : pyStartsWith r.elb_status_code "5" = true <;>
            simp only [h2, h3, h4, h5, if_true, Bool.false_eq_true, if_false,
              eq_self_iff_true, Bool.not_eq_true] at * <;> omega

theorem countP_target_buckets_le (recs : List LogRecord) :
    recs.countP (fun r => pyStartsWith r.target_status_code "4") +
    recs.countP (fun r => pyStartsWith r.target_status_code "5") ≤ recs.length := by
  induction recs with
  | nil => simp
  | cons r rest ih =>
    simp only [List.countP_cons, List.length_cons]
    by_cases h4 : pyStartsWith r.target_status_code "4" = true
    · have h5 : pyStartsWith r.target_status_code "5" = false := pyStartsWith_excl (by decide) h4
      simp only [h4, h5, if_true, Bool.false_eq_true, if_false] at *; omega
    · by_cases h5 : pyStartsWith r.target_status_code "5" = true <;>
        simp only [h4, h5, if_true, Bool.false_eq_true, if_false,
          eq_self_iff_true, Bool.not_eq_true] at * <;> omega

/-! ## Claim theorems -/

/-- C1: routing into status buckets is per record — the ELB-side bucket is
chosen by the first digit of the load-balancer status code and the
backend-side bucket independently by the first digit of the backend status
code, so each record lands in at most one ELB bucket and at most one
backend bucket; consequently, for every record set, the sum of the `Count`
column over each of the six status-family ResultTables equals the number of
input records whose relevant status code starts with that bucket's digit
(the two trailing inequalities are the at-most-one-bucket facts). -/
theorem claim_C1_bucket_totals (recs : List LogRecord) (abuse : List String) :
    ((((build_analysis recs abuse).elb_2xx_count).map (·.1)).sum =
      recs.countP (fun r => pyStartsWith r.elb_status_code "2") ∧
    (((build_analysis recs abuse).elb_3xx_count).map (·.1)).sum =
      recs.countP (fun r => pyStartsWith r.elb_status_code "3") ∧
    (((build_analysis recs abuse).elb_4xx_count).map (·.1)).sum =
      recs.countP (fun r => pyStartsWith r.elb_status_code "4") ∧
    (((build_analysis recs abuse).elb_5xx_count).map (·.1)).sum =
      recs.countP (fun r => pyStartsWith r.elb_status_code "5") ∧
    (((build_analysis recs abuse).backend_4xx_count).map (·.1)).sum =
      recs.countP (fun r => pyStartsWith r.target_status_code "4") ∧
    (((build_analysis recs abuse).backend_5xx_count).map (·.1)).sum =
      recs.countP (fun r => pyStartsWith r.target_status_code "5")) ∧
    recs.countP (fun r => pyStartsWith r.elb_status_code "2") +
      recs.countP (fun r => pyStartsWith r.elb_status_code "3") +
      recs.countP (fun r => pyStartsWith r.elb_status_code "4") +
      recs.countP (fun r => pyStartsWith r.elb_status_code "5") ≤ recs.length ∧
    recs.countP (fun r => pyStartsWith r.target_status_code "4") +
      recs.countP (fun r => pyStartsWith r.target_status_code "5") ≤ recs.length := by
  refine ⟨⟨?_, ?_, ?_, ?_, ?_, ?_⟩,
    countP_elb_buckets_le recs, countP_target_buckets_le recs⟩
  · rw [show (build_analysis recs abuse).elb_2xx_count =
        _create_status_code_dataframe ((recs.foldl analyzeStep initState).elb_2xx_counts)
        from rfl, df_status_sum, fold_elb2]
    simp [initState, sumCounts]
  · rw [show (build_analysis recs abuse).elb_3xx_count =
        _create_3xx_status_code_dataframe ((recs.foldl analyzeStep initState).elb_3xx_counts)
        from rfl, df_3xx_sum, fold_elb3]
    simp [initState, sumCounts]
  · rw [show (build_analysis recs abuse).elb_4xx_count =
        _create_status_code_dataframe ((recs.foldl analyzeStep initState).elb_4xx_counts)
        from rfl, df_status_sum, fold_elb4]
    simp [initState, sumCounts]
  · rw [show (build_analysis recs abuse).elb_5xx_count =
        _create_status_code_dataframe ((recs.foldl analyzeStep initState).elb_5xx_counts)
        from rfl, df_status_sum, fold_elb5]
    simp [initState, sumCounts]
  · rw [show (build_analysis recs abuse).backend_4xx_count =
        _create_status_code_dataframe ((recs.foldl analyzeStep initState).target_4xx_counts)
        from rfl, df_status_sum, fold_target4]
    simp [initState, sumCounts]
  · rw [show (build_analysis recs abuse).backend_5xx_count =
        _create_status_code_dataframe ((recs.foldl analyzeStep initState).target_5xx_counts)
        from rfl, df_status_sum, fold_target5]
    simp [initState, sumCounts]

/-! ### Sheet splitting -/

theorem mul_lt_iff_lt_ceil {C R i : Nat} (hC : 0 < C) :
    i * C < R ↔ i < (R + C - 1) / C := by
  constructor
  · intro h
    have h2 : (i + 1) * C ≤ R + C - 1 := by rw [Nat.add_mul]; omega
    have h3 := (Nat.le_div_iff_mul_le hC).mpr h2
    omega
  · intro h
    have h2 : (i + 1) * C ≤ R + C - 1 := (Nat.le_div_iff_mul_le hC).mp (by omega)
    rw [Nat.add_mul] at h2
    omega

theorem ceil_le_div_succ {C R : Nat} (hC : 0 < C) :
    (R + C - 1) / C ≤ R / C + 1 := by
  calc (R + C - 1) / C ≤ (R + C) / C := Nat.div_le_div_right (by omega)
    _ = R / C + 1 := Nat.add_div_right _ hC

theorem filterMap_range_of_none {β : Type} (f : Nat → Option β) (t : Nat)
    (hnone : ∀ i, t ≤ i → f i = none) :
    ∀ k, t ≤ k → (List.range k).filterMap f = (List.range t).filterMap f := by
  intro k
  induction k with
  | zero => intro h; have : t = 0 := Nat.le_zero.mp h; rw [this]
  | succ k ih =>
    intro h
    by_cases hk : t ≤ k
    · rw [List.range_succ, List.filterMap_append, ih hk]
      simp [List.filterMap_cons, hnone k hk]
    · have : t = k + 1 := by omega
      rw [this]

theorem filterMap_range_of_some {β : Type} (f : Nat → Option β) (g : Nat → β) :
    ∀ t, (∀ i, i < t → f i = some (g i)) →
      (List.range t).filterMap f = (List.range t).map g := by
  intro t
  induction t with
  | zero => intro _; rfl
  | succ t ih =>
    intro hsome
    rw [List.range_succ, List.filterMap_append, List.map_append,
      ih (fun i hi => hsome i (Nat.lt_succ_of_lt hi))]
    simp [List.filterMap_cons, hsome t (Nat.lt_succ_self t)]

/-- Structural characterization of `create_sheet`: for a positive row
ceiling it produces exactly `⌈rows.length / C⌉` sheets, the `i`-th being the
`i`-th consecutive chunk with its indexed title. -/
theorem create_sheet_eq {ρ : Type} (C : Nat) (hC : 0 < C) (name : String) (rows : List ρ) :
    create_sheet C name rows =
      (List.range ((rows.length + C - 1) / C)).map
        (fun i => (sheet_title name i, (rows.drop (i * C)).take C)) := by
  have hnone : ∀ i, (rows.length + C - 1) / C ≤ i →
      (fun sheet_index =>
        let current := (rows.drop (sheet_index * C)).take C
        if current.isEmpty then none
        else some (sheet_title name sheet_index, current)) i = none := by
    intro i hi
    have hge : rows.length ≤ i * C := by
      by_contra hlt
      push_neg at hlt
      have h3 := (mul_lt_iff_lt_ceil (C := C) (R := rows.length) (i := i) hC).mp hlt
      omega
    simp only
    rw [List.drop_eq_nil_of_le hge]
    simp
  have hsome : ∀ i, i < (rows.length + C - 1) / C →
      (fun sheet_index =>
        let current := (rows.drop (sheet_index * C)).take C
        if current.isEmpty then none
        else some (sheet_title name sheet_index, current)) i =
        some (sheet_title name i, (rows.drop (i * C)).take C) := by
    intro i hi
    have hlt : i * C < rows.length := (mul_lt_iff_lt_ceil hC).mpr hi
    have hne : ((rows.drop (i * C)).take C) ≠ [] := by
      apply List.ne_nil_of_length_pos
      rw [List.length_take, List.length_drop]
      omega
    simp only
    rw [if_neg (by simpa using hne)]
  unfold create_sheet
  rw [filterMap_range_of_none _ _ hnone _ (ceil_le_div_succ hC),
    filterMap_range_of_some _ _ _ hsome]

theorem join_chunks {ρ : Type} (C : Nat) (rows : List ρ) :
    ∀ n, ((List.range n).map (fun i => (rows.drop (i * C)).take C)).flatten =
      rows.take (n * C) := by
  intro n
  induction n with
  | zero => simp
  | succ n ih =>
    rw [List.range_succ, List.map_append, List.flatten_append, ih, Nat.succ_mul,
      List.take_add]
    simp

theorem create_sheet_get {ρ : Type} (C : Nat) (hC : 0 < C) (name : String)
    (rows : List ρ) (i : Nat) (hi : i < (create_sheet C name rows).length) :
    (create_sheet C name rows).get ⟨i, hi⟩ =
      (sheet_title name i, (rows.drop (i * C)).take C) := by
  have heq := create_sheet_eq C hC name rows
  rw [List.get_of_eq heq]
  simp [List.get_eq_getElem, List.getElem_map, List.getElem_range]

theorem sheet_title_length_le (name : String) (i : Nat) :
    (sheet_title name i).length ≤ 31 := by
  have h : (sheet_title name i).length =
      ((name.data.take 25 ++
        (if i > 0 then "_" ++ toString (i + 1) else "").data).take 31).length := rfl
  rw [h, List.length_take]
  omega

/-- C7: for a positive per-sheet row ceiling `C`, the writer emits exactly
`⌈R / C⌉` sheets; they are the consecutive chunks of the table in original
row order (their concatenation is the table, so each row appears in exactly
one sheet), none is empty, the `i`-th sheet's name is the base name
truncated to 25 characters with the `_<i+1>` suffix for `i > 0`, and every
sheet name is at most the platform's 31-character maximum. -/
theorem claim_C7_sheet_split {ρ : Type} (C : Nat) (hC : 0 < C) (name : String)
    (rows : List ρ) :
    (create_sheet C name rows).length = (rows.length + C - 1) / C ∧
    ((create_sheet C name rows).map Prod.snd).flatten = rows ∧
    (∀ i (hi : i < (create_sheet C name rows).length),
      (create_sheet C name rows).get ⟨i, hi⟩ =
        (sheet_title name i, (rows.drop (i * C)).take C) ∧
      ((create_sheet C name rows).get ⟨i, hi⟩).2 ≠ []) ∧
    (∀ e ∈ create_sheet C name rows, e.1.length ≤ 31) := by
  have heq := create_sheet_eq C hC name rows
  refine ⟨?_, ?_, ?_, ?_⟩
  · rw [heq, List.length_map, List.length_range]
  · rw [heq, List.map_map]
    have : (Prod.snd ∘ fun i => (sheet_title name i, (rows.drop (i * C)).take C)) =
        fun i => (rows.drop (i * C)).take C := rfl
    rw [this, join_chunks]
    apply List.take_of_length_le
    have h4 : ¬ ((rows.length + C - 1) / C * C < rows.length) := by
      rw [mul_lt_iff_lt_ceil (C := C) (R := rows.length) hC]
      exact lt_irrefl _
    omega
  · intro i hi
    have hi' : i < (rows.length + C - 1) / C := by
      rw [heq, List.length_map, List.length_range] at hi
      exact hi
    refine ⟨create_sheet_get C hC name rows i hi, ?_⟩
    rw [create_sheet_get C hC name rows i hi]
    apply List.ne_nil_of_length_pos
    have hlt : i * C < rows.length := (mul_lt_iff_lt_ceil hC).mpr hi'
    rw [List.length_take, List.length_drop]
    omega
  · intro e he
    rw [heq] at he
    obtain ⟨i, _, rfl⟩ := List.mem_map.mp he
    exact sheet_title_length_le name i

/-! ### Run-level cleanup -/

/-- C9 fails as stated: a `ClientError` escaping the analyze stage (the
enumerated stages all run inside the one `try`) reaches the handler that
only logs, so neither staging directory is cleaned on that exit path. -/
theorem claim_C9_counterexample :
    process_logs ⟨none, none, none, true, some Exc.clientError, none⟩ = [] ∧
    Dir.gz ∉ process_logs ⟨none, none, none, true, some Exc.clientError, none⟩ ∧
    Dir.log ∉ process_logs ⟨none, none, none, true, some Exc.clientError, none⟩ := by
  decide

set_option maxHeartbeats 2000000 in
/-- C9 (amended): the final report directory is never cleaned on any exit
path; the two staging directories are cleaned together or not at all, and
they are cleaned exactly on normal completion and on generic-exception
paths reached after both staging directories were assigned — not when a
`ClientError` or `NoRegionError` escapes, and not when the failure precedes
the assignment of both staging directory names (the retried cleanup then
dies on `NameError`). -/
theorem claim_C9_cleanup (s : RunScript) :
    Dir.report ∉ process_logs s ∧
    (process_logs s = [Dir.gz, Dir.log] ∨ process_logs s = []) ∧
    (process_logs s = [Dir.gz, Dir.log] ↔
      s.download = none ∧ s.decompress = none ∧
        (s.parse = some Exc.other ∨
          (s.parse = none ∧ (s.parsed_nonempty = false ∨
            (s.analyze = some Exc.other ∨
              (s.analyze = none ∧
                (s.save = none ∨ s.save = some Exc.other))))))) := by
  obtain ⟨d, dc, p, pn, a, sv⟩ := s
  rcases d with _ | (_ | _ | _) <;>
    rcases dc with _ | (_ | _ | _) <;>
    rcases p with _ | (_ | _ | _) <;>
    rcases pn with _ | _ <;>
    rcases a with _ | (_ | _ | _) <;>
    rcases sv with _ | (_ | _ | _) <;>
    decide

/-- Witness for C7 at `C = 2` on a five-row table. -/
theorem claim_C7_sheet_split_witness :
    (create_sheet 2 "Sheet" ([1, 2, 3, 4, 5] : List Nat)).length = (5 + 2 - 1) / 2 ∧
    ((create_sheet 2 "Sheet" ([1, 2, 3, 4, 5] : List Nat)).map Prod.snd).flatten =
      [1, 2, 3, 4, 5] :=
  ⟨(claim_C7_sheet_split 2 (by decide) "Sheet" [1, 2, 3, 4, 5]).1,
   (claim_C7_sheet_split 2 (by decide) "Sheet" [1, 2, 3, 4, 5]).2.1⟩

/-! ### The slow-request table -/

/-- C6: every row of the slow-request table has total duration `≥ 1.0`, the
table is sorted by total duration descending, has at most 100 rows, and —
whenever at most 100 records are slow — it consists of exactly the slow
records (row-projected), each retained individually. -/
theorem claim_C6_slow_table (recs : List LogRecord) (abuse : List String) :
    (∀ row ∈ (build_analysis recs abuse).top_100_response_time, (1 : ℚ) ≤ row.1) ∧
    List.Pairwise rtDesc ((build_analysis recs abuse).top_100_response_time) ∧
    ((build_analysis recs abuse).top_100_response_time).length ≤ 100 ∧
    ((recs.filter (fun r => (1 : ℚ) ≤ r.response_time)).length ≤ 100 →
      ((build_analysis recs abuse).top_100_response_time).Perm
        ((recs.filter (fun r => (1 : ℚ) ≤ r.response_time)).map slowRow)) := by
  have hproj : (build_analysis recs abuse).top_100_response_time =
      _create_long_response_times_dataframe
        ((recs.foldl analyzeStep initState).long_response_times) := rfl
  have hlong : (recs.foldl analyzeStep initState).long_response_times =
      recs.filter (fun r => (1 : ℚ) ≤ r.response_time) := by
    rw [fold_long]; rfl
  have hsorted := List.sorted_insertionSort rtDesc
    ((recs.filter (fun r => (1 : ℚ) ≤ r.response_time)).map slowRow)
  have hperm := List.perm_insertionSort rtDesc
    ((recs.filter (fun r => (1 : ℚ) ≤ r.response_time)).map slowRow)
  refine ⟨?_, ?_, ?_, ?_⟩
  · intro row hrow
    rw [hproj] at hrow
    unfold _create_long_response_times_dataframe at hrow
    rw [hlong] at hrow
    have h1 : row ∈ List.insertionSort rtDesc
        ((recs.filter (fun r => (1 : ℚ) ≤ r.response_time)).map slowRow) :=
      List.mem_of_mem_take hrow
    have h2 := hperm.mem_iff.mp h1
    obtain ⟨r, hr, rfl⟩ := List.mem_map.mp h2
    have h3 := List.of_mem_filter hr
    simpa [slowRow] using h3
  · rw [hproj]
    unfold _create_long_response_times_dataframe
    rw [hlong]
    exact List.Pairwise.sublist (List.take_sublist _ _) hsorted
  · rw [hproj]
    unfold _create_long_response_times_dataframe
    simp [List.length_take]
  · intro hle
    rw [hproj]
    unfold _create_long_response_times_dataframe
    rw [hlong]
    rw [List.take_of_length_le (by rw [hperm.length_eq, List.length_map]; exact hle)]
    exact hperm

/-- A concrete slow record used by the C6 witness. -/
def exSlowRec : LogRecord :=
  { timestamp := ⟨2024, 1, 1, 0, 0, 0, 0⟩, client_ip := "1.2.3.4", target_ip := none,
    request_processing_time := mkRat 1 2, target_processing_time := mkRat 1 2,
    response_processing_time := mkRat 1 2, elb_status_code := "200",
    target_status_code := "200", received_bytes := "0", sent_bytes := "0",
    request := "/u", response_time := mkRat 3 2, user_agent := "ua", ssl_cipher := "c",
    ssl_protocol := "p", target_group_arn := "a", trace_id := "t", domain_name := "d",
    chosen_cert_arn := "cc", matched_rule_priority := "1", request_creation_time := "rct",
    actions_executed := "ae", redirect_url := "ru", error_reason := "er",
    target_port_list := "tpl", target_status_code_list := "tscl", classification := "cl",
    classification_reason := "cr", conn_trace_id := "cid" }

/-- Witness for C6 on a single slow record. -/
theorem claim_C6_slow_table_witness :
    ([exSlowRec].filter (fun r => (1 : ℚ) ≤ r.response_time)).length ≤ 100 ∧
    ((build_analysis [exSlowRec] []).top_100_response_time).Perm
      (([exSlowRec].filter (fun r => (1 : ℚ) ≤ r.response_time)).map slowRow) :=
  ⟨by decide, (claim_C6_slow_table [exSlowRec] []).2.2.2 (by decide)⟩

/-! ### The reputation fetch (C4) -/

/-- C4 counterexample: a failed fetch of the reputation list does **not**
degrade to an empty reputation set — `download_abuseipdb`'s
`raise_for_status()` raises, and since `analyze_logs` calls it bare, the
exception escapes: at a concrete one-record input the analysis stage
aborts (`.error`) instead of returning a result bundle. -/
theorem claim_C4_counterexample :
    analyze_logs [exSlowRec] none = .error () := rfl

/-- C4 (amended): a failed fetch raises out of the bare
`download_abuseipdb()` call and aborts the analysis stage; on a successful
fetch, `analyze_logs` returns the table bundle built from the fetched
lines, and the reputation set is advisory within it — an address absent
from the set carries the default non-flagged value `'No'` in the client
ranking (the only table that consults the set). -/
theorem claim_C4_reputation_fetch (recs : List LogRecord) (body : String)
    (abuse : List String) :
    analyze_logs recs none = .error () ∧
    analyze_logs recs (some body) = .ok (build_analysis recs (pySplitlines body)) ∧
    (∀ row ∈ (build_analysis recs abuse).top_100_client_ip,
      row.2.1 ∉ abuse → row.2.2 = "No") := by
  refine ⟨rfl, rfl, ?_⟩
  intro row hrow hab
  have hproj : (build_analysis recs abuse).top_100_client_ip =
      _create_top_client_ips_dataframe
        (most_common 100 ((recs.foldl analyzeStep initState).client_ip_counter))
        abuse := rfl
  rw [hproj] at hrow
  unfold _create_top_client_ips_dataframe at hrow
  obtain ⟨kv, _, rfl⟩ := List.mem_map.mp hrow
  exact if_neg hab

/-- Witness for C4 on a single record and a nonempty reputation set not
containing the record's address. -/
theorem claim_C4_reputation_fetch_witness :
    ((1, "1.2.3.4", "No") ∈ (build_analysis [exSlowRec] ["9.9.9.9"]).top_100_client_ip) ∧
    ((1, "1.2.3.4", "No") : Nat × String × String).2.2 = "No" :=
  ⟨by decide,
   (claim_C4_reputation_fetch [exSlowRec] "" ["9.9.9.9"]).2.2 _ (by decide) (by decide)⟩

/-! ### Inversion of record construction (used by the parser claims) -/

theorem buildRecord_ok_inv (tz : DateTime → DateTime) (raw : RawLog) (rec : LogRecord)
    (h : buildRecord tz raw = .ok (some rec)) :
    ∃ m u v rpt tpt spt ts,
      parseRequest raw.request = some (m, u, v) ∧
      parse_time_field raw.request_processing_time = some rpt ∧
      parse_time_field raw.target_processing_time = some tpt ∧
      parse_time_field raw.response_processing_time = some spt ∧
      parseTimestamp raw.timestamp = some ts ∧
      raw.user_agent ≠ "-" ∧
      rec = { timestamp := tz ts
              client_ip := pySplitColonHead raw.client_ip
              target_ip := if raw.target_ip ≠ "-" then some (pySplitColonHead raw.target_ip)
                           else none
              request_processing_time := rpt
              target_processing_time := tpt
              response_processing_time := spt
              elb_status_code := raw.elb_status_code
              target_status_code := raw.target_status_code
              received_bytes := raw.received_bytes
              sent_bytes := raw.sent_bytes
              request := u
              response_time := rpt + tpt + spt
              user_agent := raw.user_agent
              ssl_cipher := raw.ssl_cipher
              ssl_protocol := raw.ssl_protocol
              target_group_arn := raw.target_group_arn
              trace_id := raw.trace_id
              domain_name := raw.domain_name
              chosen_cert_arn := raw.chosen_cert_arn
              matched_rule_priority := raw.matched_rule_priority
              request_creation_time := raw.request_creation_time
              actions_executed := raw.actions_executed
              redirect_url := raw.redirect_url
              error_reason := raw.error_reason
              target_port_list := raw.target_port_list
              target_status_code_list := raw.target_status_code_list
              classification := raw.classification
              classification_reason := raw.classification_reason
              conn_trace_id := raw.conn_trace_id } := by
  unfold buildRecord at h
  rcases hq : parseRequest raw.request with _ | ⟨m, u, v⟩ <;> rw [hq] at h
  · exact absurd h (by simp)
  rcases h1 : parse_time_field raw.request_processing_time with _ | rpt <;> rw [h1] at h
  · exact absurd h (by simp)
  rcases h2 : parse_time_field raw.target_processing_time with _ | tpt <;> rw [h2] at h
  · exact absurd h (by simp)
  rcases h3 : parse_time_field raw.response_processing_time with _ | spt <;> rw [h3] at h
  · exact absurd h (by simp)
  rcases h4 : parseTimestamp raw.timestamp with _ | ts <;> rw [h4] at h
  · exact absurd h (by simp)
  dsimp only at h
  by_cases h5 : raw.user_agent = "-"
  · rw [if_pos h5] at h
    exact absurd h (by simp)
  · rw [if_neg h5] at h
    refine ⟨m, u, v, rpt, tpt, spt, ts, rfl, rfl, rfl, rfl, rfl, h5, ?_⟩
    exact (Option.some.inj (Except.ok.inj h)).symm

/-! ### Parser claims -/

/-- A valid log line used by the parser witnesses (its client token
carries a port, its backend status code differs from the ELB one). -/
def exLine : String :=
  "http 2024-01-02T03:04:05.123456Z myelb 1.2.3.4:80 10.0.0.1:8080 0.001 0.002 0.003 200 503 100 200 \"GET /index.html HTTP/1.1\" \"Mozilla\" cipher TLSv1.2 arn \"Root=1\" \"example.com\" \"cert\" 1 2024-01-02T03:04:05.120Z \"forward\" \"-\" \"-\" \"10.0.0.1:8080\" \"200\" \"-\" \"-\" TID_abc"

/-- The capture of `exLine`. -/
def exRaw : RawLog := (matchGrammar exLine).get (by decide)

/-- The record materialized from `exLine` (UTC analyzer). -/
def exRec : LogRecord := (parseRecOpt exLine).get (by decide)

/-- `exLine` with the load balancer's `-1` timeout marker as request
processing time. -/
def cexLineNeg : String :=
  "http 2024-01-02T03:04:05.123456Z myelb 1.2.3.4:80 10.0.0.1:8080 -1 0.002 0.003 200 503 100 200 \"GET /index.html HTTP/1.1\" \"Mozilla\" cipher TLSv1.2 arn \"Root=1\" \"example.com\" \"cert\" 1 2024-01-02T03:04:05.120Z \"forward\" \"-\" \"-\" \"10.0.0.1:8080\" \"200\" \"-\" \"-\" TID_abc"

/-- `exLine` with a timestamp token that the fixed `strptime` format cannot
parse (the grammar itself still matches). -/
def cexLineBadTs : String :=
  "http BADTS myelb 1.2.3.4:80 10.0.0.1:8080 0.001 0.002 0.003 200 503 100 200 \"GET /index.html HTTP/1.1\" \"Mozilla\" cipher TLSv1.2 arn \"Root=1\" \"example.com\" \"cert\" 1 2024-01-02T03:04:05.120Z \"forward\" \"-\" \"-\" \"10.0.0.1:8080\" \"200\" \"-\" \"-\" TID_abc"

/-- The capture of `cexLineBadTs`. -/
def cexRawBadTs : RawLog := (matchGrammar cexLineBadTs).get (by decide)

/-- C10: the stored client address is the raw client token truncated at its
first `':'`, and the stored target address is `None` exactly when the raw
target token is `'-'`, otherwise the raw target token truncated at its
first `':'`. -/
theorem claim_C10_addresses (tz : DateTime → DateTime) (line : String) (raw : RawLog)
    (rec : LogRecord) (hraw : matchGrammar line = some raw)
    (hrec : parse_log_line tz line = .ok (some rec)) :
    rec.client_ip = pySplitColonHead raw.client_ip ∧
    (rec.target_ip = none ↔ raw.target_ip = "-") ∧
    (raw.target_ip ≠ "-" → rec.target_ip = some (pySplitColonHead raw.target_ip)) := by
  have hb : buildRecord tz raw = .ok (some rec) := by
    rw [← hrec]; simp [parse_log_line, hraw]
  obtain ⟨m, u, v, rpt, tpt, spt, ts, _, _, _, _, _, _, rfl⟩ :=
    buildRecord_ok_inv tz raw rec hb
  refine ⟨rfl, ?_, ?_⟩
  · by_cases h : raw.target_ip = "-" <;> simp [h]
  · intro h; simp [h]

/-- Witness for C10 on `exLine`. -/
theorem claim_C10_addresses_witness :
    matchGrammar exLine = some exRaw ∧
    parse_log_line (fun t => t) exLine = .ok (some exRec) ∧
    (exRec.client_ip = pySplitColonHead exRaw.client_ip ∧
     (exRec.target_ip = none ↔ exRaw.target_ip = "-") ∧
     (exRaw.target_ip ≠ "-" → exRec.target_ip = some (pySplitColonHead exRaw.target_ip))) :=
  ⟨(Option.some_get _).symm, rfl,
   claim_C10_addresses (fun t => t) exLine exRaw exRec (Option.some_get _).symm rfl⟩

/-- C8 (amended): each stored duration component is exactly the
`_parse_time_field` value of its token (`'-'` maps to `0`; a record exists
only when all three parse — a non-numeric non-sentinel token never becomes
a zero), and the stored total duration is the sum of the three components.
The claim's non-negativity is dropped: the grammar admits negative numeric
tokens (the load balancer's `-1` timeout marker), see the
counterexample. -/
theorem claim_C8_durations (tz : DateTime → DateTime) (line : String) (raw : RawLog)
    (rec : LogRecord) (hraw : matchGrammar line = some raw)
    (hrec : parse_log_line tz line = .ok (some rec)) :
    parse_time_field raw.request_processing_time = some rec.request_processing_time ∧
    parse_time_field raw.target_processing_time = some rec.target_processing_time ∧
    parse_time_field raw.response_processing_time = some rec.response_processing_time ∧
    rec.response_time = rec.request_processing_time + rec.target_processing_time +
      rec.response_processing_time ∧
    (raw.request_processing_time = "-" → rec.request_processing_time = 0) ∧
    (raw.target_processing_time = "-" → rec.target_processing_time = 0) ∧
    (raw.response_processing_time = "-" → rec.response_processing_time = 0) := by
  have hb : buildRecord tz raw = .ok (some rec) := by
    rw [← hrec]; simp [parse_log_line, hraw]
  obtain ⟨m, u, v, rpt, tpt, spt, ts, hq, h1, h2, h3, h4, h5, rfl⟩ :=
    buildRecord_ok_inv tz raw rec hb
  refine ⟨h1, h2, h3, rfl, ?_, ?_, ?_⟩
  · intro h; rw [h] at h1; simp [parse_time_field] at h1; exact h1.symm
  · intro h; rw [h] at h2; simp [parse_time_field] at h2; exact h2.symm
  · intro h; rw [h] at h3; simp [parse_time_field] at h3; exact h3.symm

/-- C8 fails as stated on negative duration tokens: `'-1'` parses as the
number `-1 < 0` and the record is materialized with a negative duration
component. -/
theorem claim_C8_counterexample :
    (parseRecOpt cexLineNeg).map (·.request_processing_time) = some (mkRat (-1) 1) ∧
    (mkRat (-1) 1 : ℚ) < 0 := by decide

/-- Witness for C8 on `exLine`. -/
theorem claim_C8_durations_witness :
    matchGrammar exLine = some exRaw ∧
    parse_log_line (fun t => t) exLine = .ok (some exRec) ∧
    parse_time_field exRaw.request_processing_time = some exRec.request_processing_time :=
  ⟨(Option.some_get _).symm, rfl,
   (claim_C8_durations (fun t => t) exLine exRaw exRec (Option.some_get _).symm rfl).1⟩

/-- What parsing preserves and transforms, per field: the stored record
reproduces every pass-through capture verbatim; the durations go through
the sentinel mapping; the client/target addresses are truncated at the
first `':'` (`'-'` target becomes `None`); only the URL sub-token of the
request survives; the timestamp is rebased by the configured timezone
conversion. -/
def RoundTrip (tz : DateTime → DateTime) (raw : RawLog) (rec : LogRecord) : Prop :=
  rec.elb_status_code = raw.elb_status_code ∧
  rec.target_status_code = raw.target_status_code ∧
  rec.received_bytes = raw.received_bytes ∧
  rec.sent_bytes = raw.sent_bytes ∧
  rec.user_agent = raw.user_agent ∧
  rec.ssl_cipher = raw.ssl_cipher ∧
  rec.ssl_protocol = raw.ssl_protocol ∧
  rec.target_group_arn = raw.target_group_arn ∧
  rec.trace_id = raw.trace_id ∧
  rec.domain_name = raw.domain_name ∧
  rec.chosen_cert_arn = raw.chosen_cert_arn ∧
  rec.matched_rule_priority = raw.matched_rule_priority ∧
  rec.request_creation_time = raw.request_creation_time ∧
  rec.actions_executed = raw.actions_executed ∧
  rec.redirect_url = raw.redirect_url ∧
  rec.error_reason = raw.error_reason ∧
  rec.target_port_list = raw.target_port_list ∧
  rec.target_status_code_list = raw.target_status_code_list ∧
  rec.classification = raw.classification ∧
  rec.classification_reason = raw.classification_reason ∧
  rec.conn_trace_id = raw.conn_trace_id ∧
  parse_time_field raw.request_processing_time = some rec.request_processing_time ∧
  parse_time_field raw.target_processing_time = some rec.target_processing_time ∧
  parse_time_field raw.response_processing_time = some rec.response_processing_time ∧
  rec.client_ip = pySplitColonHead raw.client_ip ∧
  rec.target_ip = (if raw.target_ip ≠ "-" then some (pySplitColonHead raw.target_ip)
                   else none) ∧
  (parseRequest raw.request).map (fun t => t.2.1) = some rec.request ∧
  (parseTimestamp raw.timestamp).map tz = some rec.timestamp

/-- C3 (amended): for every materialized record, re-serializing reproduces
the matched fields exactly for all pass-through fields, while the three
durations go through the `'-' ↦ 0` sentinel mapping and — beyond what the
claim allowed — the client/target addresses lose everything from the first
`':'` on, the request keeps only its URL sub-token (`parseRequest` embeds
the `(\S+)\s+(\S+)\s+(\S+)` split exactly, `pySpace` being the full `\s`
set), and the timestamp is rebased to the configured timezone.  Records
materialize only over the modelled `float` fragment (`floatTokenPlain`; all
ALB duration tokens are in it), so the duration equations are stated
there. -/
theorem claim_C3_roundtrip (tz : DateTime → DateTime) (line : String) (raw : RawLog)
    (rec : LogRecord) (hraw : matchGrammar line = some raw)
    (hrec : parse_log_line tz line = .ok (some rec)) :
    RoundTrip tz raw rec := by
  have hb : buildRecord tz raw = .ok (some rec) := by
    rw [← hrec]; simp [parse_log_line, hraw]
  obtain ⟨m, u, v, rpt, tpt, spt, ts, hq, h1, h2, h3, h4, h5, rfl⟩ :=
    buildRecord_ok_inv tz raw rec hb
  refine ⟨rfl, rfl, rfl, rfl, rfl, rfl, rfl, rfl, rfl, rfl, rfl, rfl, rfl, rfl, rfl,
    rfl, rfl, rfl, rfl, rfl, rfl, h1, h2, h3, rfl, rfl, ?_, ?_⟩
  · rw [hq]; rfl
  · rw [h4]; rfl

/-- C3 fails as stated: on a valid line whose client token carries a port,
the stored client address differs from the matched `client_ip` field, a
non-duration field. -/
theorem claim_C3_counterexample :
    (matchGrammar exLine).map (·.client_ip) = some "1.2.3.4:80" ∧
    (parseRecOpt exLine).map (·.client_ip) = some "1.2.3.4" ∧
    some "1.2.3.4" ≠ some "1.2.3.4:80" := by decide

/-- Witness for C3 on `exLine`. -/
theorem claim_C3_roundtrip_witness :
    matchGrammar exLine = some exRaw ∧
    parse_log_line (fun t => t) exLine = .ok (some exRec) ∧
    RoundTrip (fun t => t) exRaw exRec :=
  ⟨(Option.some_get _).symm, rfl,
   claim_C3_roundtrip (fun t => t) exLine exRaw exRec (Option.some_get _).symm rfl⟩

/-- C2 (amended): for every input line the parser yields a complete record,
returns nothing, or raises — never a partial record.  Unconditionally, a
line failing the overall grammar is dropped (`.ok none`), a matched line
whose `'-'`-placeholder user agent would be filtered never materializes a
record, and a malformed request sub-field drops the line.  On the fragment
where the `float`/`strptime` models are exact — the three duration tokens
plain per `floatTokenPlain` and the timestamp token ASCII per `asciiToken`,
which covers everything ALB emits — the outcome is characterized
completely: any unparsable duration token drops the line, and the parser
raises (the uncaught `strptime` `ValueError` escaping `_parse_log_line`)
exactly when the request and the three durations parse but the timestamp
token does not. -/
theorem claim_C2_parser_totality (tz : DateTime → DateTime) (line : String) :
    (parse_log_line tz line = .ok none ∨
      (∃ r, parse_log_line tz line = .ok (some r)) ∨
      parse_log_line tz line = .error ()) ∧
    (matchGrammar line = none → parse_log_line tz line = .ok none) ∧
    (∀ raw, matchGrammar line = some raw →
      ((raw.user_agent = "-" → ∀ r, parse_log_line tz line ≠ .ok (some r)) ∧
       (parseRequest raw.request = none → parse_log_line tz line = .ok none) ∧
       (floatTokenPlain raw.request_processing_time = true →
        floatTokenPlain raw.target_processing_time = true →
        floatTokenPlain raw.response_processing_time = true →
        asciiToken raw.timestamp = true →
        (((parse_time_field raw.request_processing_time = none ∨
           parse_time_field raw.target_processing_time = none ∨
           parse_time_field raw.response_processing_time = none) →
           parse_log_line tz line = .ok none) ∧
         (parse_log_line tz line = .error () ↔
           parseRequest raw.request ≠ none ∧
           parse_time_field raw.request_processing_time ≠ none ∧
           parse_time_field raw.target_processing_time ≠ none ∧
           parse_time_field raw.response_processing_time ≠ none ∧
           parseTimestamp raw.timestamp = none) ∧
         ((parseRequest raw.request ≠ none ∧
           parse_time_field raw.request_processing_time ≠ none ∧
           parse_time_field raw.target_processing_time ≠ none ∧
           parse_time_field raw.response_processing_time ≠ none ∧
           parseTimestamp raw.timestamp ≠ none ∧ raw.user_agent = "-") →
           parse_log_line tz line = .ok none))))) := by
  refine ⟨?_, ?_, ?_⟩
  · rcases h : parse_log_line tz line with e | (_ | r)
    · cases e; exact Or.inr (Or.inr rfl)
    · exact Or.inl rfl
    · exact Or.inr (Or.inl ⟨r, rfl⟩)
  · intro h; simp [parse_log_line, h]
  · intro raw hraw
    have hpl : parse_log_line tz line = buildRecord tz raw := by
      simp [parse_log_line, hraw]
    rcases hq : parseRequest raw.request with _ | ⟨m, u, v⟩
    · have hb : buildRecord tz raw = .ok none := by
        unfold buildRecord; rw [hq]
      rw [hpl, hb]
      exact ⟨fun _ r => by simp, fun _ => rfl,
        fun _ _ _ _ => ⟨fun _ => rfl, by simp, by simp⟩⟩
    · rcases h1 : parse_time_field raw.request_processing_time with _ | q1
      · have hb : buildRecord tz raw = .ok none := by
          unfold buildRecord; rw [hq, h1]
        rw [hpl, hb]
        exact ⟨fun _ r => by simp, fun _ => rfl,
          fun _ _ _ _ => ⟨fun _ => rfl, by simp, by simp⟩⟩
      · rcases h2 : parse_time_field raw.target_processing_time with _ | q2
        · have hb : buildRecord tz raw = .ok none := by
            unfold buildRecord; rw [hq, h1, h2]
          rw [hpl, hb]
          exact ⟨fun _ r => by simp, fun _ => rfl,
            fun _ _ _ _ => ⟨fun _ => rfl, by simp, by simp⟩⟩
        · rcases h3 : parse_time_field raw.response_processing_time with _ | q3
          · have hb : buildRecord tz raw = .ok none := by
              unfold buildRecord; rw [hq, h1, h2, h3]
            rw [hpl, hb]
            exact ⟨fun _ r => by simp, fun _ => rfl,
              fun _ _ _ _ => ⟨fun _ => rfl, by simp, by simp⟩⟩
          · rcases h4 : parseTimestamp raw.timestamp with _ | ts
            · have hb : buildRecord tz raw = .error () := by
                unfold buildRecord; rw [hq, h1, h2, h3, h4]
              rw [hpl, hb]
              exact ⟨fun _ r => by simp, fun h => by simp at h,
                fun _ _ _ _ => ⟨fun h => by simp at h, by simp, by simp⟩⟩
            · by_cases h5 : raw.user_agent = "-"
              · have hb : buildRecord tz raw = .ok none := by
                  unfold buildRecord; rw [hq, h1, h2, h3, h4]
                  dsimp only; rw [if_pos h5]
                rw [hpl, hb]
                exact ⟨fun _ r => by simp, fun _ => rfl,
                  fun _ _ _ _ => ⟨fun _ => rfl, by simp, fun _ => rfl⟩⟩
              · have hb : ∃ r, buildRecord tz raw = .ok (some r) := by
                  unfold buildRecord; rw [hq, h1, h2, h3, h4]
                  dsimp only; rw [if_neg h5]
                  exact ⟨_, rfl⟩
                obtain ⟨r, hb⟩ := hb
                rw [hpl, hb]
                exact ⟨fun h => absurd h h5, fun h => by simp at h,
                  fun _ _ _ _ => ⟨fun h => by simp at h, by simp,
                    fun h => absurd h.2.2.2.2.2 h5⟩⟩

/-- C2 fails as stated: this line matches the grammar, has a well-formed
request, parseable durations and a non-placeholder user agent, yet the
parser neither returns a record nor returns nothing — `strptime` raises on
the timestamp token and the exception escapes `_parse_log_line`. -/
theorem claim_C2_counterexample :
    matchGrammar cexLineBadTs ≠ none ∧
    parse_log_line (fun t => t) cexLineBadTs = .error () :=
  ⟨by decide, rfl⟩

/-- Witness for C2: the exception case of the characterization, realized on
`cexLineBadTs` (whose duration tokens are plain and whose timestamp token
is ASCII). -/
theorem claim_C2_parser_totality_witness :
    matchGrammar cexLineBadTs = some cexRawBadTs ∧
    parseTimestamp cexRawBadTs.timestamp = none ∧
    parse_log_line (fun t => t) cexLineBadTs = .error () :=
  ⟨(Option.some_get _).symm, by decide,
   ((((claim_C2_parser_totality (fun t => t) cexLineBadTs).2.2 cexRawBadTs
      (Option.some_get _).symm).2.2 (by decide) (by decide) (by decide)
      (by decide)).2.1).mpr
     ⟨by decide, by decide, by decide, by decide, by decide⟩⟩

/-! ### Top-N rankings (C5) -/

/-- The distinct values of a list in first-observation order (the key order
of a CPython dict/Counter filled left to right). -/
def firstSeen {α : Type} [DecidableEq α] (l : List α) : List α :=
  l.foldl (fun acc x => if x ∈ acc then acc else acc ++ [x]) []

theorem keys_bump {κ : Type} [DecidableEq κ] (k : κ) (c : List (κ × Nat)) :
    (bump k c).map Prod.fst =
      if k ∈ c.map Prod.fst then c.map Prod.fst else c.map Prod.fst ++ [k] := by
  induction c with
  | nil => simp [bump]
  | cons kv rest ih =>
    obtain ⟨k1, n⟩ := kv
    by_cases h : k1 = k
    · subst h; simp [bump]
    · simp only [bump, if_neg h, List.map_cons, ih, List.mem_cons]
      by_cases hm : k ∈ rest.map Prod.fst
      · simp [hm, Ne.symm h]
      · simp [hm, Ne.symm h]

theorem counter_keys (proj : LogRecord → String) (recs : List LogRecord) :
    ∀ c : List (String × Nat),
      ((recs.foldl (fun c r => bump (proj r) c) c).map Prod.fst) =
        (recs.map proj).foldl (fun acc x => if x ∈ acc then acc else acc ++ [x])
          (c.map Prod.fst) := by
  induction recs with
  | nil => intro c; rfl
  | cons r rest ih =>
    intro c
    simp only [List.foldl_cons, List.map_cons]
    rw [ih, keys_bump]

/-- The counter lists its keys in first-observation order. -/
theorem counterOf_keys (proj : LogRecord → String) (recs : List LogRecord) :
    (counterOf proj recs).map Prod.fst = firstSeen (recs.map proj) := by
  unfold counterOf firstSeen
  simpa using counter_keys proj recs []

theorem firstSeen_fold_nodup {α : Type} [DecidableEq α] :
    ∀ (l : List α) (acc : List α), acc.Nodup →
      (l.foldl (fun acc x => if x ∈ acc then acc else acc ++ [x]) acc).Nodup := by
  intro l
  induction l with
  | nil => intro acc h; exact h
  | cons x xs ih =>
    intro acc h
    simp only [List.foldl_cons]
    by_cases hx : x ∈ acc
    · rw [if_pos hx]; exact ih acc h
    · rw [if_neg hx]
      apply ih
      rw [List.nodup_append]
      refine ⟨h, List.nodup_singleton x, fun y hy hyx => ?_⟩
      exact hx ((List.mem_singleton.mp hyx) ▸ hy)

theorem counterOf_keys_nodup (proj : LogRecord → String) (recs : List LogRecord) :
    ((counterOf proj recs).map Prod.fst).Nodup := by
  rw [counterOf_keys]
  exact firstSeen_fold_nodup _ [] List.nodup_nil

theorem indexOf_of_getElem_opt {κ : Type} [DecidableEq κ] (c : List (κ × Nat))
    (hnd : (c.map Prod.fst).Nodup) (n : Nat) (kv : κ × Nat)
    (h : getElem? c n = some kv) :
    (c.map Prod.fst).indexOf kv.1 = n := by
  have hn : n < c.length := by
    by_contra hge
    push_neg at hge
    rw [List.getElem?_eq_none hge] at h
    exact absurd h (by simp)
  have hval : c.get ⟨n, hn⟩ = kv := by
    have h2 := List.getElem?_eq_getElem hn
    rw [h2] at h
    rw [List.get_eq_getElem]
    exact Option.some.inj h
  have hn2 : n < (c.map Prod.fst).length := by simpa using hn
  have hmap : (c.map Prod.fst).get ⟨n, hn2⟩ = kv.1 := by
    rw [← hval]
    simp [List.get_eq_getElem, List.getElem_map]
  rw [← hmap]
  exact List.get_indexOf hnd ⟨n, hn2⟩

/-- The four ranking properties of `most_common 100` on a counter with
distinct keys: descending counts, length cap, the outside-the-list bound,
and first-observation order among equal counts (via positions in the
counter's key list). -/
theorem most_common_spec (c : List (String × Nat)) (hnd : (c.map Prod.fst).Nodup) :
    List.Pairwise countDesc (most_common 100 c) ∧
    (most_common 100 c).length ≤ 100 ∧
    (∀ kv ∈ c, kv.1 ∉ (most_common 100 c).map Prod.fst →
      ∀ lastv, (most_common 100 c).getLast? = some lastv → kv.2 ≤ lastv.2) ∧
    (∀ i j (hi : i < (most_common 100 c).length) (hj : j < (most_common 100 c).length),
      i < j →
      ((most_common 100 c).get ⟨i, hi⟩).2 = ((most_common 100 c).get ⟨j, hj⟩).2 →
      (c.map Prod.fst).indexOf ((most_common 100 c).get ⟨i, hi⟩).1 <
        (c.map Prod.fst).indexOf ((most_common 100 c).get ⟨j, hj⟩).1) := by
  have hsort : List.Pairwise nlargestRel (List.insertionSort nlargestRel c.enum) :=
    List.sorted_insertionSort nlargestRel c.enum
  have hperm : (List.insertionSort nlargestRel c.enum).Perm c.enum :=
    List.perm_insertionSort nlargestRel c.enum
  set s := List.insertionSort nlargestRel c.enum with hs
  have hmc : most_common 100 c = (s.map Prod.snd).take 100 := rfl
  have hpm : List.Pairwise countDesc (s.map Prod.snd) := by
    rw [List.pairwise_map]
    apply hsort.imp
    rintro a b (hlt | ⟨heq, _⟩)
    · exact le_of_lt hlt
    · exact le_of_eq heq.symm
  have hmcl : (most_common 100 c).length = min 100 (s.map Prod.snd).length := by
    rw [hmc, List.length_take]
  have hmle : (most_common 100 c).length ≤ (s.map Prod.snd).length := by
    rw [hmcl]; omega
  have hget : ∀ (i : Nat) (hi : i < (most_common 100 c).length),
      (most_common 100 c).get ⟨i, hi⟩ =
        (s.map Prod.snd).get ⟨i, lt_of_lt_of_le hi hmle⟩ := by
    intro i hi
    rw [List.get_of_eq hmc ⟨i, hi⟩]
    simp [List.get_eq_getElem, List.getElem_take]
  refine ⟨?_, ?_, ?_, ?_⟩
  · rw [hmc]
    exact List.Pairwise.sublist (List.take_sublist _ _) hpm
  · rw [hmcl]; omega
  · intro kv hkv hnot lastv hlast
    obtain ⟨n, hn, hcn⟩ := List.getElem_of_mem hkv
    have henum : (n, kv) ∈ c.enum := by
      apply List.mk_mem_enum_iff_getElem?.mpr
      rw [List.getElem?_eq_getElem hn, hcn]
    have hsmem : (n, kv) ∈ s := hperm.mem_iff.mpr henum
    have hmmem : kv ∈ s.map Prod.snd := List.mem_map.mpr ⟨(n, kv), hsmem, rfl⟩
    obtain ⟨p, hp, hmp⟩ := List.getElem_of_mem hmmem
    have hp100 : 100 ≤ p := by
      by_contra hlt100
      push_neg at hlt100
      apply hnot
      rw [hmc]
      apply List.mem_map.mpr
      refine ⟨kv, ?_, rfl⟩
      rw [List.mem_iff_getElem]
      refine ⟨p, by rw [List.length_take]; omega, ?_⟩
      rw [List.getElem_take]
      exact hmp
    have h99 : 99 < (s.map Prod.snd).length := by omega
    have hb : 99 < ((s.map Prod.snd).take 100).length := by
      rw [List.length_take]; omega
    have hlast2 : (s.map Prod.snd).get ⟨99, h99⟩ = lastv := by
      rw [hmc, List.getLast?_eq_getElem?] at hlast
      have hlen : ((s.map Prod.snd).take 100).length = 100 := by
        rw [List.length_take]; omega
      rw [hlen, List.getElem?_eq_getElem hb] at hlast
      have h2 := Option.some.inj hlast
      rw [List.getElem_take] at h2
      rw [List.get_eq_getElem]
      exact h2
    have hle := List.pairwise_iff_getElem.mp hpm 99 p h99 hp (by omega)
    have hkv2 : kv.2 = (fun q : String × Nat => q.2) ((s.map Prod.snd).get ⟨p, hp⟩) := by
      rw [List.get_eq_getElem, hmp]
    rw [← hlast2, hkv2]
    exact hle
  · intro i j hi hj hij hcnt
    have hsl : (most_common 100 c).length ≤ s.length := by
      simpa using hmle
    have hi2 : i < s.length := lt_of_lt_of_le hi hsl
    have hj2 : j < s.length := lt_of_lt_of_le hj hsl
    have hgi : (most_common 100 c).get ⟨i, hi⟩ = (s.get ⟨i, hi2⟩).2 := by
      rw [hget i hi]
      simp [List.get_eq_getElem, List.getElem_map]
    have hgj : (most_common 100 c).get ⟨j, hj⟩ = (s.get ⟨j, hj2⟩).2 := by
      rw [hget j hj]
      simp [List.get_eq_getElem, List.getElem_map]
    have hrel := List.pairwise_iff_getElem.mp hsort i j hi2 hj2 hij
    have hcnt2 : (s.get ⟨i, hi2⟩).2.2 = (s.get ⟨j, hj2⟩).2.2 := by
      rw [hgi, hgj] at hcnt
      exact hcnt
    have hfst_nodup : (s.map Prod.fst).Nodup := by
      have hp2 : (s.map Prod.fst).Perm (c.enum.map Prod.fst) := hperm.map Prod.fst
      rw [List.enum_map_fst] at hp2
      exact hp2.nodup_iff.mpr (List.nodup_range _)
    have hidx_ne : (s.get ⟨i, hi2⟩).1 ≠ (s.get ⟨j, hj2⟩).1 := by
      intro heq
      have hmi : i < (s.map Prod.fst).length := by simpa using hi2
      have hmj : j < (s.map Prod.fst).length := by simpa using hj2
      have h1 : (s.map Prod.fst).get ⟨i, hmi⟩ = (s.map Prod.fst).get ⟨j, hmj⟩ := by
        simp only [List.get_eq_getElem, List.getElem_map]
        exact heq
      have h2 : i = j := (@List.Nodup.getElem_inj_iff _ _ hfst_nodup i hmi j hmj).mp h1
      omega
    have hidx_le : (s.get ⟨i, hi2⟩).1 ≤ (s.get ⟨j, hj2⟩).1 := by
      rcases hrel with hlt | ⟨heq, hle⟩
      · exfalso
        have hlt2 : (s.get ⟨j, hj2⟩).2.2 < (s.get ⟨i, hi2⟩).2.2 := hlt
        omega
      · exact hle
    have hidx : (s.get ⟨i, hi2⟩).1 < (s.get ⟨j, hj2⟩).1 :=
      lt_of_le_of_ne hidx_le hidx_ne
    have hio : ∀ (k : Nat) (hk : k < s.length),
        (c.map Prod.fst).indexOf ((s.get ⟨k, hk⟩).2.1) = (s.get ⟨k, hk⟩).1 := by
      intro k hk
      apply indexOf_of_getElem_opt c hnd
      apply List.mk_mem_enum_iff_getElem?.mp
      rw [Prod.mk.eta]
      apply hperm.subset
      rw [List.get_eq_getElem]
      exact List.getElem_mem hk
    rw [hgi, hgj, hio i hi2, hio j hj2]
    exact hidx

/-- The C5 ranking contract for one projection: the counter's keys are in
first-observation order, and `most_common 100` of it is sorted by
descending frequency, has at most 100 entries, every counted value outside
it has frequency at most the last listed one, and equal-frequency entries
appear in first-observation order. -/
def TopN (recs : List LogRecord) (proj : LogRecord → String) : Prop :=
  ((counterOf proj recs).map Prod.fst = firstSeen (recs.map proj)) ∧
  List.Pairwise countDesc (most_common 100 (counterOf proj recs)) ∧
  (most_common 100 (counterOf proj recs)).length ≤ 100 ∧
  (∀ kv ∈ counterOf proj recs,
    kv.1 ∉ (most_common 100 (counterOf proj recs)).map Prod.fst →
    ∀ lastv, (most_common 100 (counterOf proj recs)).getLast? = some lastv →
      kv.2 ≤ lastv.2) ∧
  (∀ i j (hi : i < (most_common 100 (counterOf proj recs)).length)
      (hj : j < (most_common 100 (counterOf proj recs)).length), i < j →
    ((most_common 100 (counterOf proj recs)).get ⟨i, hi⟩).2 =
      ((most_common 100 (counterOf proj recs)).get ⟨j, hj⟩).2 →
    (firstSeen (recs.map proj)).indexOf
        ((most_common 100 (counterOf proj recs)).get ⟨i, hi⟩).1 <
      (firstSeen (recs.map proj)).indexOf
        ((most_common 100 (counterOf proj recs)).get ⟨j, hj⟩).1)

theorem topN_holds (recs : List LogRecord) (proj : LogRecord → String) :
    TopN recs proj := by
  have hnd := counterOf_keys_nodup proj recs
  have hspec := most_common_spec (counterOf proj recs) hnd
  refine ⟨counterOf_keys proj recs, hspec.1, hspec.2.1, hspec.2.2.1, ?_⟩
  intro i j hi hj hij hcnt
  have h := hspec.2.2.2 i j hi hj hij hcnt
  rwa [counterOf_keys proj recs] at h

/-- C5: each of the three top-N rankings (client address, user agent,
request URL) is the `most_common 100` of its counter — sorted by descending
frequency, at most 100 entries, every value outside it no more frequent
than the last listed one, ties in first-observation order — and the
analysis bundle's three ranking tables are exactly the column-projections
of these rankings. -/
theorem claim_C5_top_rankings (recs : List LogRecord) (abuse : List String) :
    TopN recs (fun r => r.client_ip) ∧
    TopN recs (fun r => r.user_agent) ∧
    TopN recs (fun r => r.request) ∧
    (build_analysis recs abuse).top_100_client_ip =
      _create_top_client_ips_dataframe
        (most_common 100 (counterOf (fun r => r.client_ip) recs))
        abuse ∧
    (build_analysis recs abuse).top_100_user_agents =
      _create_top_user_agents_dataframe
        (most_common 100 (counterOf (fun r => r.user_agent) recs)) ∧
    (build_analysis recs abuse).top_100_request_url =
      _create_top_request_url_dataframe
        (most_common 100 (counterOf (fun r => r.request) recs)) := by
  refine ⟨topN_holds recs _, topN_holds recs _, topN_holds recs _, ?_, ?_, ?_⟩
  · have h := fold_counter_client recs initState
    calc (build_analysis recs abuse).top_100_client_ip
        = _create_top_client_ips_dataframe
            (most_common 100 ((recs.foldl analyzeStep initState).client_ip_counter))
            abuse := rfl
      _ = _create_top_client_ips_dataframe
            (most_common 100 (counterOf (fun r => r.client_ip) recs))
            abuse := by rw [h]; rfl
  · have h := fold_counter_agent recs initState
    calc (build_analysis recs abuse).top_100_user_agents
        = _create_top_user_agents_dataframe
            (most_common 100 ((recs.foldl analyzeStep initState).user_agent_counter)) := rfl
      _ = _create_top_user_agents_dataframe
            (most_common 100 (counterOf (fun r => r.user_agent) recs)) := by rw [h]; rfl
  · have h := fold_counter_url recs initState
    calc (build_analysis recs abuse).top_100_request_url
        = _create_top_request_url_dataframe
            (most_common 100 ((recs.foldl analyzeStep initState).request_url_counter)) := rfl
      _ = _create_top_request_url_dataframe
            (most_common 100 (counterOf (fun r => r.request) recs)) := by rw [h]; rfl

/-- A second record with a different client address, for the C5 witness. -/
def exRecB : LogRecord :=
  { exSlowRec with client_ip := "5.6.7.8" }

/-- Witness for C5: two equal-frequency client addresses appear in
first-observation order. -/
theorem claim_C5_top_rankings_witness :
    (firstSeen ([exSlowRec, exRecB].map (fun r => r.client_ip))).indexOf
        ((most_common 100 (counterOf (fun r => r.client_ip) [exSlowRec, exRecB])).get
          ⟨0, by decide⟩).1 <
      (firstSeen ([exSlowRec, exRecB].map (fun r => r.client_ip))).indexOf
        ((most_common 100 (counterOf (fun r => r.client_ip) [exSlowRec, exRecB])).get
          ⟨1, by decide⟩).1 :=
  (claim_C5_top_rankings [exSlowRec, exRecB] []).1.2.2.2.2 0 1 (by decide) (by decide)
    (by decide) (by decide)

end AlbLog
